import Mathlib

/-
Shallow embedding of the ChainLogistics soroban contract
(src/smart-contract/contracts/src/contract.rs).

Modeling conventions:
* `Address` is an opaque identifier with decidable equality, modeled as `Nat`.
* The persistent/instance key-value store is modeled field by field: one
  `Option`-valued map per `DataKey` family, mirroring `get` returning
  `Option` and `unwrap_or(0)` via `Option.getD 0`.
* All `u64` arithmetic is modeled as `Nat` reduced modulo `2 ^ 64`,
  matching wrapping `u64` release semantics: the pagination index
  arithmetic `start + 1` and `start + limit + 1`, and likewise the
  counter increments of `register_product` (`TotalProducts`,
  `ActiveProducts`, per-owner and per-origin counts).
* `require_auth` is an external collaborator: a failed authentication
  aborts the call before the body runs, so successful calls are the only
  ones modeled.
* Fallible operations return an `Except Error Unit` result paired with the
  post-state; every `Err` return in the source occurs before the first
  storage write, so the paired state on the error path is the input state.
-/

namespace ChainLogistics

/-- 2^64, the modulus of wrapping `u64` arithmetic. -/
def U64 : Nat := 2 ^ 64

/-- Addresses are opaque with decidable equality. -/
abbrev Address := Nat

/-- The `Product` record from types.rs, as used by contract.rs. -/
structure Product where
  id : Nat
  owner : Address
  origin : String
  active : Bool
  metadata : String
  created_at : Nat
  deriving DecidableEq

/-- The `ProductStats` record returned by `get_stats`. -/
structure ProductStats where
  total_products : Nat
  active_products : Nat
  deriving DecidableEq

/-- The contract error enum. -/
inductive Error where
  | ProductNotFound
  | Unauthorized
  deriving DecidableEq

deriving instance DecidableEq for Except

/-- The persisted contract storage, one field per `DataKey` family. -/
structure ContractState where
  totalProducts : Option Nat
  activeProducts : Option Nat
  product : Nat → Option Product
  allProductsIndex : Nat → Option Nat
  ownerProductCount : Address → Option Nat
  ownerProductIndex : Address → Nat → Option Nat
  originProductCount : String → Option Nat
  originProductIndex : String → Nat → Option Nat
  auth : Nat → Address → Option Bool

/-- The empty storage before any call. -/
def initState : ContractState :=
  ⟨none, none, fun _ => none, fun _ => none, fun _ => none,
   fun _ _ => none, fun _ => none, fun _ _ => none, fun _ _ => none⟩

/-- `TotalProducts` read with `unwrap_or(0)`. -/
def totalOf (s : ContractState) : Nat := s.totalProducts.getD 0

/-- `OwnerProductCount(owner)` read with `unwrap_or(0)`. -/
def ownerCountOf (s : ContractState) (owner : Address) : Nat :=
  (s.ownerProductCount owner).getD 0

/-- `OriginProductCount(origin)` read with `unwrap_or(0)`. -/
def originCountOf (s : ContractState) (origin : String) : Nat :=
  (s.originProductCount origin).getD 0

/-- `register_product`: assigns the next id, stores the product, appends it
to the global, owner and origin indices, and bumps all counters.  The
source returns `Ok(total_products)` unconditionally (authentication is
external), so the model returns the new id paired with the post-state. -/
def register_product (s : ContractState) (owner : Address)
    (origin metadata : String) (now : Nat) : Nat × ContractState :=
  let total_products := (totalOf s + 1) % U64
  let product : Product :=
    ⟨total_products, owner, origin, true, metadata, now⟩
  let owner_count := (ownerCountOf s owner + 1) % U64
  let origin_count := (originCountOf s origin + 1) % U64
  let active_products := (s.activeProducts.getD 0 + 1) % U64
  (total_products,
    { totalProducts := some total_products
      activeProducts := some active_products
      product := fun i =>
        if i = total_products then some product else s.product i
      allProductsIndex := fun i =>
        if i = total_products then some total_products
        else s.allProductsIndex i
      ownerProductCount := fun a =>
        if a = owner then some owner_count else s.ownerProductCount a
      ownerProductIndex := fun a i =>
        if a = owner ∧ i = owner_count then some total_products
        else s.ownerProductIndex a i
      originProductCount := fun g =>
        if g = origin then some origin_count else s.originProductCount g
      originProductIndex := fun g i =>
        if g = origin ∧ i = origin_count then some total_products
        else s.originProductIndex g i
      auth := s.auth })

/-- `get_product`: pure lookup in the product store. -/
def get_product (s : ContractState) (id : Nat) : Option Product :=
  s.product id

/-- The `for i in start_index..end_index` loop body shared by the three
listing functions: `fuel` is the number of remaining loop positions
(`end_index - i`); the loop breaks at the first `i > total` and otherwise
pushes the product resolved through `f` when both lookups succeed. -/
def collectRange (f : Nat → Option Product) (total : Nat) :
    Nat → Nat → List Product
  | _, 0 => []
  | i, fuel + 1 =>
    if total < i then []
    else
      match f i with
      | some p => p :: collectRange f total (i + 1) fuel
      | none => collectRange f total (i + 1) fuel

/-- `get_all_products`: paginate the global index. -/
def get_all_products (s : ContractState) (start limit : Nat) :
    List Product :=
  let total := totalOf s
  let start_index := (start + 1) % U64
  let end_index := (start + limit + 1) % U64
  collectRange (fun i => (s.allProductsIndex i).bind s.product) total
    start_index (end_index - start_index)

/-- `get_products_by_owner`: paginate one owner's index. -/
def get_products_by_owner (s : ContractState) (owner : Address)
    (start limit : Nat) : List Product :=
  let count := ownerCountOf s owner
  let start_index := (start + 1) % U64
  let end_index := (start + limit + 1) % U64
  collectRange (fun i => (s.ownerProductIndex owner i).bind s.product)
    count start_index (end_index - start_index)

/-- `get_products_by_origin`: paginate one origin's index. -/
def get_products_by_origin (s : ContractState) (origin : String)
    (start limit : Nat) : List Product :=
  let count := originCountOf s origin
  let start_index := (start + 1) % U64
  let end_index := (start + limit + 1) % U64
  collectRange (fun i => (s.originProductIndex origin i).bind s.product)
    count start_index (end_index - start_index)

/-- `get_stats`: pure read of the two global counters. -/
def get_stats (s : ContractState) : ProductStats :=
  ⟨totalOf s, s.activeProducts.getD 0⟩

/-- `transfer_product`: guards (`ProductNotFound`, then `Unauthorized`),
then removes `Auth(product_id, previous owner)`, rewrites the product with
the new owner, and writes `Auth(product_id, new_owner) = true`. -/
def transfer_product (s : ContractState) (owner : Address)
    (product_id : Nat) (new_owner : Address) :
    Except Error Unit × ContractState :=
  match s.product product_id with
  | none => (.error .ProductNotFound, s)
  | some product =>
    if product.owner ≠ owner then (.error .Unauthorized, s)
    else
      (.ok (),
        { s with
          product := fun i =>
            if i = product_id then some { product with owner := new_owner }
            else s.product i
          auth := fun i a =>
            if i = product_id ∧ a = new_owner then some true
            else if i = product_id ∧ a = product.owner then none
            else s.auth i a })

/-- `add_authorized_actor`: same guards, then writes
`Auth(product_id, actor) = true`. -/
def add_authorized_actor (s : ContractState) (owner : Address)
    (product_id : Nat) (actor : Address) :
    Except Error Unit × ContractState :=
  match s.product product_id with
  | none => (.error .ProductNotFound, s)
  | some product =>
    if product.owner ≠ owner then (.error .Unauthorized, s)
    else
      (.ok (),
        { s with
          auth := fun i a =>
            if i = product_id ∧ a = actor then some true
            else s.auth i a })

/-- `remove_authorized_actor`: same guards, then removes
`Auth(product_id, actor)`. -/
def remove_authorized_actor (s : ContractState) (owner : Address)
    (product_id : Nat) (actor : Address) :
    Except Error Unit × ContractState :=
  match s.product product_id with
  | none => (.error .ProductNotFound, s)
  | some product =>
    if product.owner ≠ owner then (.error .Unauthorized, s)
    else
      (.ok (),
        { s with
          auth := fun i a =>
            if i = product_id ∧ a = actor then none
            else s.auth i a })

/-- `is_authorized`: current owner, else delegated entry defaulted false. -/
def is_authorized (s : ContractState) (product_id : Nat)
    (actor : Address) : Bool :=
  match s.product product_id with
  | some product =>
    if product.owner = actor then true
    else (s.auth product_id actor).getD false
  | none => (s.auth product_id actor).getD false

/-- One public mutating call, carrying its inputs. -/
inductive Event where
  | reg (owner : Address) (origin metadata : String) (now : Nat)
  | xfer (owner : Address) (product_id : Nat) (new_owner : Address)
  | grant (owner : Address) (product_id : Nat) (actor : Address)
  | revoke (owner : Address) (product_id : Nat) (actor : Address)

/-- The state transition of one call; a failed call leaves the state as it
was. -/
def step (s : ContractState) : Event → ContractState
  | .reg o g m t => (register_product s o g m t).2
  | .xfer o id n => (transfer_product s o id n).2
  | .grant o id a => (add_authorized_actor s o id a).2
  | .revoke o id a => (remove_authorized_actor s o id a).2

/-- The state reached by a sequence of public calls from the empty
storage: the reachable states are exactly the `run τ`. -/
def run (τ : List Event) : ContractState := τ.foldl step initState

/-- A one-product state: address 0 registered product 1 (origin "o"). -/
def cxS1 : ContractState := (register_product initState 0 "o" "m" 0).2

/-- A state where owner 0 additionally delegated address 7 on product 1. -/
def cxS2 : ContractState := (add_authorized_actor cxS1 0 1 7).2

/-- Every delegated entry points at an existing product: granted entries are
only written by calls that already found the product, and products are
never deleted. -/
def AuthNeedsProduct (s : ContractState) : Prop :=
  ∀ id a b, s.auth id a = some b → ∃ p, s.product id = some p

/-- The inputs of one `register_product` call. -/
structure RegCall where
  owner : Address
  origin : String
  metadata : String
  now : Nat

/-- Run a sequence of `register_product` calls, collecting the returned
ids. -/
def runRegs : ContractState → List RegCall → List Nat × ContractState
  | s, [] => ([], s)
  | s, c :: cs =>
    let r := register_product s c.owner c.origin c.metadata c.now
    let rest := runRegs r.2 cs
    (r.1 :: rest.1, rest.2)

/-- The product record a registration call stores when it is assigned
id `i`. -/
def expProduct (c : RegCall) (i : Nat) : Product :=
  ⟨i, c.owner, c.origin, true, c.metadata, c.now⟩

/-- The product records a sequence of registrations stores when the ids
start at `base + 1`. -/
def producedList : Nat → List RegCall → List Product
  | _, [] => []
  | base, c :: cs => expProduct c (base + 1) :: producedList (base + 1) cs

/-- `Tiles a b ws`: the windows `ws` cover `[a, b)` contiguously, each
window being a `(start, limit)` pair. -/
def Tiles : Nat → Nat → List (Nat × Nat) → Prop
  | a, b, [] => a = b
  | a, b, w :: ws => w.1 = a ∧ Tiles (a + w.2) b ws

/-- Number of registration events in a trace. -/
def regCount : List Event → Nat
  | [] => 0
  | .reg _ _ _ _ :: τ => regCount τ + 1
  | .xfer _ _ _ :: τ => regCount τ
  | .grant _ _ _ :: τ => regCount τ
  | .revoke _ _ _ :: τ => regCount τ

/-- Number of registration events under a given owner. -/
def regCountByOwner (a : Address) : List Event → Nat
  | [] => 0
  | .reg o _ _ _ :: τ => (if a = o then 1 else 0) + regCountByOwner a τ
  | .xfer _ _ _ :: τ => regCountByOwner a τ
  | .grant _ _ _ :: τ => regCountByOwner a τ
  | .revoke _ _ _ :: τ => regCountByOwner a τ

/-- Number of registration events under a given origin. -/
def regCountByOrigin (g : String) : List Event → Nat
  | [] => 0
  | .reg _ g' _ _ :: τ => (if g = g' then 1 else 0) + regCountByOrigin g τ
  | .xfer _ _ _ :: τ => regCountByOrigin g τ
  | .grant _ _ _ :: τ => regCountByOrigin g τ
  | .revoke _ _ _ :: τ => regCountByOrigin g τ

/-- The secondary-index invariant: every dimension's positions `1..count`
are populated with ids of existing products (matching the origin key in
the origin dimension), nothing is populated outside that range, the
stored ids grow strictly with the position, and every per-key count is
bounded by the global count (each registration bumps both). -/
def IndexInv (s : ContractState) : Prop :=
  (∀ i, 1 ≤ i → i ≤ totalOf s →
    s.allProductsIndex i = some i ∧ ∃ p, s.product i = some p ∧ p.id = i) ∧
  (∀ i, i = 0 ∨ totalOf s < i →
    s.allProductsIndex i = none ∧ s.product i = none) ∧
  (∀ a i, 1 ≤ i → i ≤ ownerCountOf s a →
    ∃ pid, s.ownerProductIndex a i = some pid ∧ 1 ≤ pid ∧ pid ≤ totalOf s) ∧
  (∀ a i, i = 0 ∨ ownerCountOf s a < i → s.ownerProductIndex a i = none) ∧
  (∀ a i j pi pj, s.ownerProductIndex a i = some pi →
    s.ownerProductIndex a j = some pj → i < j → pi < pj) ∧
  (∀ g i, 1 ≤ i → i ≤ originCountOf s g →
    ∃ pid p, s.originProductIndex g i = some pid ∧ 1 ≤ pid ∧ pid ≤ totalOf s ∧
      s.product pid = some p ∧ p.origin = g) ∧
  (∀ g i, i = 0 ∨ originCountOf s g < i → s.originProductIndex g i = none) ∧
  (∀ g i j pi pj, s.originProductIndex g i = some pi →
    s.originProductIndex g j = some pj → i < j → pi < pj) ∧
  (∀ a, ownerCountOf s a ≤ totalOf s) ∧
  (∀ g, originCountOf s g ≤ totalOf s)

/-- Two concrete registration calls used to instantiate the pagination
theorem. -/
def c7cs : List RegCall := [⟨0, "x", "mx", 1⟩, ⟨1, "y", "my", 2⟩]

/-- Explicit shape of a registration call's result. -/
lemma register_product_def (s : ContractState) (o : Address) (g m : String)
    (t : Nat) :
    register_product s o g m t =
      ((totalOf s + 1) % U64,
        { totalProducts := some ((totalOf s + 1) % U64)
          activeProducts := some ((s.activeProducts.getD 0 + 1) % U64)
          product := fun i =>
            if i = (totalOf s + 1) % U64 then
              some ⟨(totalOf s + 1) % U64, o, g, true, m, t⟩
            else s.product i
          allProductsIndex := fun i =>
            if i = (totalOf s + 1) % U64 then some ((totalOf s + 1) % U64)
            else s.allProductsIndex i
          ownerProductCount := fun a =>
            if a = o then some ((ownerCountOf s o + 1) % U64)
            else s.ownerProductCount a
          ownerProductIndex := fun a i =>
            if a = o ∧ i = (ownerCountOf s o + 1) % U64 then
              some ((totalOf s + 1) % U64)
            else s.ownerProductIndex a i
          originProductCount := fun g' =>
            if g' = g then some ((originCountOf s g + 1) % U64)
            else s.originProductCount g'
          originProductIndex := fun g' i =>
            if g' = g ∧ i = (originCountOf s g + 1) % U64 then
              some ((totalOf s + 1) % U64)
            else s.originProductIndex g' i
          auth := s.auth }) := rfl

/-- `transfer_product` on a missing product. -/
lemma transfer_product_none (s : ContractState) (o : Address) (pid : Nat)
    (n : Address) (hq : s.product pid = none) :
    transfer_product s o pid n = (.error .ProductNotFound, s) := by
  simp [transfer_product, hq]

/-- `transfer_product` by a non-owner. -/
lemma transfer_product_unauth (s : ContractState) (o : Address) (pid : Nat)
    (n : Address) (q : Product) (hq : s.product pid = some q)
    (hqo : q.owner ≠ o) :
    transfer_product s o pid n = (.error .Unauthorized, s) := by
  simp [transfer_product, hq, hqo]

/-- `transfer_product` by the owner: the authorization handover and the
owner rewrite. -/
lemma transfer_product_ok (s : ContractState) (o : Address) (pid : Nat)
    (n : Address) (q : Product) (hq : s.product pid = some q)
    (hqo : q.owner = o) :
    transfer_product s o pid n =
      (.ok (),
        { s with
          product := fun i =>
            if i = pid then some { q with owner := n } else s.product i
          auth := fun i a =>
            if i = pid ∧ a = n then some true
            else if i = pid ∧ a = q.owner then none
            else s.auth i a }) := by
  simp [transfer_product, hq, hqo]

/-- `add_authorized_actor` on a missing product. -/
lemma add_authorized_actor_none (s : ContractState) (o : Address) (pid : Nat)
    (x : Address) (hq : s.product pid = none) :
    add_authorized_actor s o pid x = (.error .ProductNotFound, s) := by
  simp [add_authorized_actor, hq]

/-- `add_authorized_actor` by a non-owner. -/
lemma add_authorized_actor_unauth (s : ContractState) (o : Address) (pid : Nat)
    (x : Address) (q : Product) (hq : s.product pid = some q)
    (hqo : q.owner ≠ o) :
    add_authorized_actor s o pid x = (.error .Unauthorized, s) := by
  simp [add_authorized_actor, hq, hqo]

/-- `add_authorized_actor` by the owner. -/
lemma add_authorized_actor_ok (s : ContractState) (o : Address) (pid : Nat)
    (x : Address) (q : Product) (hq : s.product pid = some q)
    (hqo : q.owner = o) :
    add_authorized_actor s o pid x =
      (.ok (),
        { s with
          auth := fun i a =>
            if i = pid ∧ a = x then some true else s.auth i a }) := by
  simp [add_authorized_actor, hq, hqo]

/-- `remove_authorized_actor` on a missing product. -/
lemma remove_authorized_actor_none (s : ContractState) (o : Address)
    (pid : Nat) (x : Address) (hq : s.product pid = none) :
    remove_authorized_actor s o pid x = (.error .ProductNotFound, s) := by
  simp [remove_authorized_actor, hq]

/-- `remove_authorized_actor` by a non-owner. -/
lemma remove_authorized_actor_unauth (s : ContractState) (o : Address)
    (pid : Nat) (x : Address) (q : Product) (hq : s.product pid = some q)
    (hqo : q.owner ≠ o) :
    remove_authorized_actor s o pid x = (.error .Unauthorized, s) := by
  simp [remove_authorized_actor, hq, hqo]

/-- `remove_authorized_actor` by the owner. -/
lemma remove_authorized_actor_ok (s : ContractState) (o : Address)
    (pid : Nat) (x : Address) (q : Product) (hq : s.product pid = some q)
    (hqo : q.owner = o) :
    remove_authorized_actor s o pid x =
      (.ok (),
        { s with
          auth := fun i a =>
            if i = pid ∧ a = x then none else s.auth i a }) := by
  simp [remove_authorized_actor, hq, hqo]

lemma reg_totalOf (s : ContractState) (o : Address) (g m : String) (t : Nat) :
    totalOf (register_product s o g m t).2 = (totalOf s + 1) % U64 := rfl

lemma reg_totalOf_eq (s : ContractState) (o : Address) (g m : String) (t : Nat)
    (hb : totalOf s + 1 < U64) :
    totalOf (register_product s o g m t).2 = totalOf s + 1 := by
  rw [reg_totalOf, Nat.mod_eq_of_lt hb]

lemma reg_allIdx (s : ContractState) (o : Address) (g m : String) (t : Nat)
    (i : Nat) :
    (register_product s o g m t).2.allProductsIndex i =
      if i = (totalOf s + 1) % U64 then some ((totalOf s + 1) % U64)
      else s.allProductsIndex i := rfl

lemma reg_allIdx_eq (s : ContractState) (o : Address) (g m : String) (t : Nat)
    (hb : totalOf s + 1 < U64) (i : Nat) :
    (register_product s o g m t).2.allProductsIndex i =
      if i = totalOf s + 1 then some (totalOf s + 1)
      else s.allProductsIndex i := by
  rw [reg_allIdx, Nat.mod_eq_of_lt hb]

lemma reg_product (s : ContractState) (o : Address) (g m : String) (t : Nat)
    (i : Nat) :
    (register_product s o g m t).2.product i =
      if i = (totalOf s + 1) % U64 then
        some ⟨(totalOf s + 1) % U64, o, g, true, m, t⟩
      else s.product i := rfl

lemma reg_product_eq (s : ContractState) (o : Address) (g m : String) (t : Nat)
    (hb : totalOf s + 1 < U64) (i : Nat) :
    (register_product s o g m t).2.product i =
      if i = totalOf s + 1 then some ⟨totalOf s + 1, o, g, true, m, t⟩
      else s.product i := by
  rw [reg_product, Nat.mod_eq_of_lt hb]

lemma reg_ownerCnt (s : ContractState) (o : Address) (g m : String) (t : Nat)
    (a : Address) :
    (register_product s o g m t).2.ownerProductCount a =
      if a = o then some ((ownerCountOf s o + 1) % U64)
      else s.ownerProductCount a := rfl

lemma reg_ownerIdx (s : ContractState) (o : Address) (g m : String) (t : Nat)
    (a : Address) (i : Nat) :
    (register_product s o g m t).2.ownerProductIndex a i =
      if a = o ∧ i = (ownerCountOf s o + 1) % U64 then
        some ((totalOf s + 1) % U64)
      else s.ownerProductIndex a i := rfl

lemma reg_ownerIdx_eq (s : ContractState) (o : Address) (g m : String)
    (t : Nat) (hb : totalOf s + 1 < U64) (hbo : ownerCountOf s o + 1 < U64)
    (a : Address) (i : Nat) :
    (register_product s o g m t).2.ownerProductIndex a i =
      if a = o ∧ i = ownerCountOf s o + 1 then some (totalOf s + 1)
      else s.ownerProductIndex a i := by
  rw [reg_ownerIdx, Nat.mod_eq_of_lt hb, Nat.mod_eq_of_lt hbo]

lemma reg_originCnt (s : ContractState) (o : Address) (g m : String) (t : Nat)
    (g' : String) :
    (register_product s o g m t).2.originProductCount g' =
      if g' = g then some ((originCountOf s g + 1) % U64)
      else s.originProductCount g' := rfl

lemma reg_originIdx (s : ContractState) (o : Address) (g m : String) (t : Nat)
    (g' : String) (i : Nat) :
    (register_product s o g m t).2.originProductIndex g' i =
      if g' = g ∧ i = (originCountOf s g + 1) % U64 then
        some ((totalOf s + 1) % U64)
      else s.originProductIndex g' i := rfl

lemma reg_originIdx_eq (s : ContractState) (o : Address) (g m : String)
    (t : Nat) (hb : totalOf s + 1 < U64) (hbg : originCountOf s g + 1 < U64)
    (g' : String) (i : Nat) :
    (register_product s o g m t).2.originProductIndex g' i =
      if g' = g ∧ i = originCountOf s g + 1 then some (totalOf s + 1)
      else s.originProductIndex g' i := by
  rw [reg_originIdx, Nat.mod_eq_of_lt hb, Nat.mod_eq_of_lt hbg]

lemma reg_ownerCountOf (s : ContractState) (o : Address) (g m : String)
    (t : Nat) (a : Address) :
    ownerCountOf (register_product s o g m t).2 a =
      if a = o then (ownerCountOf s o + 1) % U64 else ownerCountOf s a := by
  unfold ownerCountOf
  rw [reg_ownerCnt]
  by_cases ha : a = o <;> simp [ha, ownerCountOf]

lemma reg_ownerCountOf_eq (s : ContractState) (o : Address) (g m : String)
    (t : Nat) (hbo : ownerCountOf s o + 1 < U64) (a : Address) :
    ownerCountOf (register_product s o g m t).2 a =
      if a = o then ownerCountOf s o + 1 else ownerCountOf s a := by
  rw [reg_ownerCountOf, Nat.mod_eq_of_lt hbo]

lemma reg_originCountOf (s : ContractState) (o : Address) (g m : String)
    (t : Nat) (g' : String) :
    originCountOf (register_product s o g m t).2 g' =
      if g' = g then (originCountOf s g + 1) % U64 else originCountOf s g' := by
  unfold originCountOf
  rw [reg_originCnt]
  by_cases hg : g' = g <;> simp [hg, originCountOf]

lemma reg_originCountOf_eq (s : ContractState) (o : Address) (g m : String)
    (t : Nat) (hbg : originCountOf s g + 1 < U64) (g' : String) :
    originCountOf (register_product s o g m t).2 g' =
      if g' = g then originCountOf s g + 1 else originCountOf s g' := by
  rw [reg_originCountOf, Nat.mod_eq_of_lt hbg]

lemma collectRange_nil_of_lt (f : Nat → Option Product) (t : Nat) {i : Nat}
    (n : Nat) (h : t < i) : collectRange f t i n = [] := by
  cases n <;> simp [collectRange, h]

/-- Splitting one loop pass into two consecutive passes. -/
lemma collectRange_append (f : Nat → Option Product) (t : Nat) :
    ∀ (n m a : Nat),
      collectRange f t a (n + m) = collectRange f t a n ++ collectRange f t (a + n) m := by
  intro n
  induction n with
  | zero =>
    intro m a
    simp [collectRange, Nat.zero_add]
  | succ n ih =>
    intro m a
    have hback : n + 1 + m = (n + m) + 1 := by omega
    rw [hback, collectRange, collectRange]
    by_cases hta : t < a
    · rw [if_pos hta, if_pos hta]
      rw [List.nil_append]
      exact (collectRange_nil_of_lt f t m (by omega)).symm
    · rw [if_neg hta, if_neg hta]
      cases f a with
      | some p =>
        rw [List.cons_append]
        rw [ih m (a + 1)]
        have : a + 1 + n = a + (n + 1) := by omega
        rw [this]
      | none =>
        rw [ih m (a + 1)]
        have : a + 1 + n = a + (n + 1) := by omega
        rw [this]

lemma collectRange_mem (f : Nat → Option Product) (t : Nat) :
    ∀ (n i : Nat) (p : Product), p ∈ collectRange f t i n →
      ∃ j, i ≤ j ∧ j ≤ t ∧ f j = some p := by
  intro n
  induction n with
  | zero =>
    intro i p hp
    simp [collectRange] at hp
  | succ n ih =>
    intro i p hp
    rw [collectRange] at hp
    by_cases hti : t < i
    · rw [if_pos hti] at hp
      simp at hp
    · rw [if_neg hti] at hp
      cases hf : f i with
      | some q =>
        simp only [hf] at hp
        rcases List.mem_cons.mp hp with hpq | hp'
        · exact ⟨i, Nat.le_refl i, by omega, by rw [hf, hpq]⟩
        · obtain ⟨j, hj1, hj2, hj3⟩ := ih (i + 1) p hp'
          exact ⟨j, by omega, hj2, hj3⟩
      | none =>
        simp only [hf] at hp
        obtain ⟨j, hj1, hj2, hj3⟩ := ih (i + 1) p hp
        exact ⟨j, by omega, hj2, hj3⟩

lemma collectRange_pairwise (f : Nat → Option Product) (t : Nat)
    (H : ∀ j k p q, j < k → f j = some p → f k = some q → p.id < q.id) :
    ∀ (n i : Nat),
      List.Pairwise (fun p q => p.id < q.id) (collectRange f t i n) := by
  intro n
  induction n with
  | zero =>
    intro i
    exact List.Pairwise.nil
  | succ n ih =>
    intro i
    rw [collectRange]
    by_cases hti : t < i
    · rw [if_pos hti]
      exact List.Pairwise.nil
    · rw [if_neg hti]
      cases hf : f i with
      | some p =>
        refine List.Pairwise.cons ?_ (ih (i + 1))
        intro q hq
        obtain ⟨j, hj1, hj2, hj3⟩ := collectRange_mem f t n (i + 1) q hq
        exact H i j p q (by omega) hf hj3
      | none => exact ih (i + 1)

/-- With no wrap in the `u64` index arithmetic, a listing call is one
`collectRange` pass. -/
lemma get_all_products_eq_collect (s : ContractState) (start limit : Nat)
    (h : start + limit + 1 < U64) :
    get_all_products s start limit =
      collectRange (fun i => (s.allProductsIndex i).bind s.product) (totalOf s)
        (start + 1) limit := by
  have h1 : start + 1 < U64 := by omega
  simp only [get_all_products, Nat.mod_eq_of_lt h, Nat.mod_eq_of_lt h1]
  congr 1
  omega

lemma authNeedsProduct_init : AuthNeedsProduct initState := by
  intro id a b h
  simp [initState] at h

lemma authNeedsProduct_step (s : ContractState) (e : Event)
    (h : AuthNeedsProduct s) : AuthNeedsProduct (step s e) := by
  cases e with
  | reg o g m t =>
    intro id a b hab
    rw [step, register_product_def] at hab ⊢
    dsimp only at hab ⊢
    by_cases hid : id = (totalOf s + 1) % U64
    · exact ⟨⟨(totalOf s + 1) % U64, o, g, true, m, t⟩, by rw [if_pos hid]⟩
    · obtain ⟨p, hp⟩ := h id a b hab
      exact ⟨p, by rw [if_neg hid]; exact hp⟩
  | xfer o pid n =>
    intro id a b hab
    rw [step] at hab ⊢
    cases hq : s.product pid with
    | none =>
      rw [transfer_product_none s o pid n hq] at hab ⊢
      exact h id a b hab
    | some q =>
      by_cases hqo : q.owner = o
      · rw [transfer_product_ok s o pid n q hq hqo] at hab ⊢
        dsimp only at hab ⊢
        by_cases hid : id = pid
        · exact ⟨{ q with owner := n }, by rw [if_pos hid]⟩
        · rw [if_neg (by simp [hid]), if_neg (by simp [hid])] at hab
          obtain ⟨p, hp⟩ := h id a b hab
          exact ⟨p, by rw [if_neg hid]; exact hp⟩
      · rw [transfer_product_unauth s o pid n q hq hqo] at hab ⊢
        exact h id a b hab
  | grant o pid x =>
    intro id a b hab
    rw [step] at hab ⊢
    cases hq : s.product pid with
    | none =>
      rw [add_authorized_actor_none s o pid x hq] at hab ⊢
      exact h id a b hab
    | some q =>
      by_cases hqo : q.owner = o
      · rw [add_authorized_actor_ok s o pid x q hq hqo] at hab ⊢
        dsimp only at hab ⊢
        by_cases hid : id = pid
        · exact ⟨q, by rw [hid]; exact hq⟩
        · rw [if_neg (by simp [hid])] at hab
          exact h id a b hab
      · rw [add_authorized_actor_unauth s o pid x q hq hqo] at hab ⊢
        exact h id a b hab
  | revoke o pid x =>
    intro id a b hab
    rw [step] at hab ⊢
    cases hq : s.product pid with
    | none =>
      rw [remove_authorized_actor_none s o pid x hq] at hab ⊢
      exact h id a b hab
    | some q =>
      by_cases hqo : q.owner = o
      · rw [remove_authorized_actor_ok s o pid x q hq hqo] at hab ⊢
        dsimp only at hab ⊢
        by_cases hid : id = pid
        · exact ⟨q, by rw [hid]; exact hq⟩
        · rw [if_neg (by simp [hid])] at hab
          exact h id a b hab
      · rw [remove_authorized_actor_unauth s o pid x q hq hqo] at hab ⊢
        exact h id a b hab

lemma authNeedsProduct_foldl (τ : List Event) :
    ∀ s, AuthNeedsProduct s → AuthNeedsProduct (τ.foldl step s) := by
  induction τ with
  | nil => exact fun s h => h
  | cons e τ ih => exact fun s h => ih (step s e) (authNeedsProduct_step s e h)

lemma authNeedsProduct_run (τ : List Event) : AuthNeedsProduct (run τ) :=
  authNeedsProduct_foldl τ initState authNeedsProduct_init

lemma runRegs_cons (s : ContractState) (c : RegCall) (cs : List RegCall) :
    runRegs s (c :: cs) =
      ((register_product s c.owner c.origin c.metadata c.now).1 ::
        (runRegs (register_product s c.owner c.origin c.metadata c.now).2 cs).1,
       (runRegs (register_product s c.owner c.origin c.metadata c.now).2 cs).2) := rfl

lemma runRegs_total (cs : List RegCall) :
    ∀ s : ContractState, totalOf s + cs.length < U64 →
      totalOf (runRegs s cs).2 = totalOf s + cs.length := by
  induction cs with
  | nil => intro s _; rfl
  | cons c cs ih =>
    intro s hb
    rw [List.length_cons] at hb
    rw [runRegs_cons]
    have hb1 : totalOf s + 1 < U64 := by omega
    have h1 : totalOf (register_product s c.owner c.origin c.metadata c.now).2
        = totalOf s + 1 :=
      reg_totalOf_eq s c.owner c.origin c.metadata c.now hb1
    rw [ih _ (by rw [h1]; omega), h1]
    simp [List.length_cons]
    omega

lemma runRegs_fst (cs : List RegCall) :
    ∀ s : ContractState, totalOf s + cs.length < U64 →
      (runRegs s cs).1 = List.range' (totalOf s + 1) cs.length := by
  induction cs with
  | nil => intro s _; rfl
  | cons c cs ih =>
    intro s hb
    rw [List.length_cons] at hb
    rw [runRegs_cons]
    have hb1 : totalOf s + 1 < U64 := by omega
    have h1 : totalOf (register_product s c.owner c.origin c.metadata c.now).2
        = totalOf s + 1 :=
      reg_totalOf_eq s c.owner c.origin c.metadata c.now hb1
    have h2 : (register_product s c.owner c.origin c.metadata c.now).1
        = totalOf s + 1 := by
      show (totalOf s + 1) % U64 = totalOf s + 1
      exact Nat.mod_eq_of_lt hb1
    simp only [ih _ (by rw [h1]; omega), h1, h2, List.length_cons,
      List.range'_succ]

lemma runRegs_allIdx_low (cs : List RegCall) :
    ∀ (s : ContractState) (i : Nat), i ≤ totalOf s →
      totalOf s + cs.length < U64 →
      (runRegs s cs).2.allProductsIndex i = s.allProductsIndex i := by
  induction cs with
  | nil => intro s i _ _; rfl
  | cons c cs ih =>
    intro s i hi hb
    rw [List.length_cons] at hb
    rw [runRegs_cons]
    have hb1 : totalOf s + 1 < U64 := by omega
    have h1 : totalOf (register_product s c.owner c.origin c.metadata c.now).2
        = totalOf s + 1 :=
      reg_totalOf_eq s c.owner c.origin c.metadata c.now hb1
    rw [ih _ i (by rw [h1]; omega) (by rw [h1]; omega)]
    rw [reg_allIdx_eq s c.owner c.origin c.metadata c.now hb1]
    exact if_neg (by omega)

lemma runRegs_product_low (cs : List RegCall) :
    ∀ (s : ContractState) (i : Nat), i ≤ totalOf s →
      totalOf s + cs.length < U64 →
      (runRegs s cs).2.product i = s.product i := by
  induction cs with
  | nil => intro s i _ _; rfl
  | cons c cs ih =>
    intro s i hi hb
    rw [List.length_cons] at hb
    rw [runRegs_cons]
    have hb1 : totalOf s + 1 < U64 := by omega
    have h1 : totalOf (register_product s c.owner c.origin c.metadata c.now).2
        = totalOf s + 1 :=
      reg_totalOf_eq s c.owner c.origin c.metadata c.now hb1
    rw [ih _ i (by rw [h1]; omega) (by rw [h1]; omega)]
    rw [reg_product_eq s c.owner c.origin c.metadata c.now hb1]
    exact if_neg (by omega)

/-- Paging over the final state of a registration run, starting right
after the products that existed before the run, yields exactly the
registered products in order. -/
lemma collect_runRegs (cs : List RegCall) :
    ∀ s : ContractState, totalOf s + cs.length < U64 →
      collectRange
        (fun i => ((runRegs s cs).2.allProductsIndex i).bind (runRegs s cs).2.product)
        (totalOf (runRegs s cs).2) (totalOf s + 1) cs.length
        = producedList (totalOf s) cs := by
  induction cs with
  | nil => intro s _; rfl
  | cons c cs ih =>
    intro s hb
    rw [List.length_cons] at hb
    have hb1 : totalOf s + 1 < U64 := by omega
    have h1 : totalOf (register_product s c.owner c.origin c.metadata c.now).2
        = totalOf s + 1 :=
      reg_totalOf_eq s c.owner c.origin c.metadata c.now hb1
    have hbrest : totalOf (register_product s c.owner c.origin c.metadata c.now).2
        + cs.length < U64 := by
      rw [h1]
      omega
    have hidx : (runRegs s (c :: cs)).2.allProductsIndex (totalOf s + 1)
        = some (totalOf s + 1) := by
      rw [runRegs_cons]
      rw [runRegs_allIdx_low cs _ _ (by rw [h1]) hbrest]
      rw [reg_allIdx_eq s c.owner c.origin c.metadata c.now hb1]
      exact if_pos rfl
    have hprod : (runRegs s (c :: cs)).2.product (totalOf s + 1)
        = some (expProduct c (totalOf s + 1)) := by
      rw [runRegs_cons]
      rw [runRegs_product_low cs _ _ (by rw [h1]) hbrest]
      rw [reg_product_eq s c.owner c.origin c.metadata c.now hb1]
      exact if_pos rfl
    have htot : totalOf (runRegs s (c :: cs)).2 = totalOf s + 1 + cs.length := by
      rw [runRegs_cons, runRegs_total cs _ hbrest, h1]
    rw [List.length_cons, collectRange]
    rw [if_neg (by rw [htot]; omega)]
    have hf : (fun i => ((runRegs s (c :: cs)).2.allProductsIndex i).bind
        (runRegs s (c :: cs)).2.product) (totalOf s + 1)
        = some (expProduct c (totalOf s + 1)) := by
      show ((runRegs s (c :: cs)).2.allProductsIndex (totalOf s + 1)).bind
        (runRegs s (c :: cs)).2.product = _
      rw [hidx]
      exact hprod
    simp only [hf]
    have hrest :
        collectRange
          (fun i => ((runRegs s (c :: cs)).2.allProductsIndex i).bind
            (runRegs s (c :: cs)).2.product)
          (totalOf (runRegs s (c :: cs)).2) (totalOf s + 1 + 1) cs.length
          = producedList (totalOf s + 1) cs := by
      have := ih (register_product s c.owner c.origin c.metadata c.now).2 hbrest
      rw [h1] at this
      rw [runRegs_cons]
      exact this
    rw [hrest]
    rfl

lemma Tiles.le : ∀ (ws : List (Nat × Nat)) (a b : Nat), Tiles a b ws → a ≤ b := by
  intro ws
  induction ws with
  | nil => intro a b h; exact Nat.le_of_eq h
  | cons w ws ih =>
    intro a b h
    exact Nat.le_trans (Nat.le_add_right a w.2) (ih (a + w.2) b h.2)

lemma Tiles.window_le : ∀ (ws : List (Nat × Nat)) (a b : Nat), Tiles a b ws →
    ∀ w ∈ ws, a ≤ w.1 ∧ w.1 + w.2 ≤ b := by
  intro ws
  induction ws with
  | nil => intro a b _ w hw; cases hw
  | cons v ws ih =>
    intro a b h w hw
    rcases List.mem_cons.mp hw with hw | hw
    · subst hw
      rcases h with ⟨h1, h2⟩
      constructor
      · exact Nat.le_of_eq h1.symm
      · rw [h1]
        exact Tiles.le ws (a + w.2) b h2
    · have := ih (a + v.2) b h.2 w hw
      exact ⟨Nat.le_trans (Nat.le_add_right a v.2) this.1, this.2⟩

/-- Joining contiguous windows gives the single pass over their union. -/
lemma tiles_join (f : Nat → Option Product) (t : Nat) :
    ∀ (ws : List (Nat × Nat)) (a b : Nat), Tiles a b ws →
      (ws.map (fun w => collectRange f t (w.1 + 1) w.2)).flatten
        = collectRange f t (a + 1) (b - a) := by
  intro ws
  induction ws with
  | nil =>
    intro a b h
    rw [show a = b from h]
    simp [Nat.sub_self, collectRange]
  | cons w ws ih =>
    intro a b h
    rcases h with ⟨hw, ht⟩
    have hab : a + w.2 ≤ b := Tiles.le ws (a + w.2) b ht
    rw [List.map_cons, List.flatten_cons, hw, ih (a + w.2) b ht]
    have hsplit : b - a = w.2 + (b - (a + w.2)) := by omega
    rw [hsplit, collectRange_append]
    have : a + 1 + w.2 = a + w.2 + 1 := by omega
    rw [this]

/-- The invariant ignores the authorization store, so it transports along
equality of the other fields. -/
lemma indexInv_congr (s s' : ContractState)
    (h1 : s'.totalProducts = s.totalProducts)
    (h2 : s'.product = s.product)
    (h3 : s'.allProductsIndex = s.allProductsIndex)
    (h4 : s'.ownerProductCount = s.ownerProductCount)
    (h5 : s'.ownerProductIndex = s.ownerProductIndex)
    (h6 : s'.originProductCount = s.originProductCount)
    (h7 : s'.originProductIndex = s.originProductIndex)
    (h : IndexInv s) : IndexInv s' := by
  unfold IndexInv totalOf ownerCountOf originCountOf at h ⊢
  rw [h1, h2, h3, h4, h5, h6, h7]
  exact h

lemma indexInv_init : IndexInv initState := by
  refine ⟨?_, ?_, ?_, ?_, ?_, ?_, ?_, ?_, ?_, ?_⟩
  · intro i h1 h2
    exact absurd (Nat.le_trans h1 h2) (by simp [initState, totalOf])
  · intro i _
    exact ⟨rfl, rfl⟩
  · intro a i h1 h2
    exact absurd (Nat.le_trans h1 h2) (by simp [initState, ownerCountOf])
  · intro a i _
    rfl
  · intro a i j pi pj hi
    cases hi
  · intro g i h1 h2
    exact absurd (Nat.le_trans h1 h2) (by simp [initState, originCountOf])
  · intro g i _
    rfl
  · intro g i j pi pj hi
    cases hi
  · intro a
    exact Nat.le_refl 0
  · intro g
    exact Nat.le_refl 0

lemma indexInv_reg (s : ContractState) (o : Address) (g m : String) (t : Nat)
    (hb : totalOf s + 1 < U64) (h : IndexInv s) :
    IndexInv (register_product s o g m t).2 := by
  obtain ⟨hg1, hg2, ho1, ho2, ho3, hr1, hr2, hr3, hob, hgb⟩ := h
  have hbo : ownerCountOf s o + 1 < U64 := by
    have := hob o
    omega
  have hbg : originCountOf s g + 1 < U64 := by
    have := hgb g
    omega
  refine ⟨?_, ?_, ?_, ?_, ?_, ?_, ?_, ?_, ?_, ?_⟩
  · intro i h1 h2
    rw [reg_totalOf_eq s o g m t hb] at h2
    rw [reg_allIdx_eq s o g m t hb, reg_product_eq s o g m t hb]
    by_cases hi : i = totalOf s + 1
    · rw [if_pos hi, if_pos hi]
      exact ⟨by rw [hi], ⟨totalOf s + 1, o, g, true, m, t⟩, rfl, hi.symm⟩
    · rw [if_neg hi, if_neg hi]
      exact hg1 i h1 (by omega)
  · intro i hi
    rw [reg_totalOf_eq s o g m t hb] at hi
    rw [reg_allIdx_eq s o g m t hb, reg_product_eq s o g m t hb]
    have hi' : i ≠ totalOf s + 1 := by omega
    rw [if_neg hi', if_neg hi']
    exact hg2 i (by omega)
  · intro a i h1 h2
    rw [reg_ownerCountOf_eq s o g m t hbo] at h2
    rw [reg_totalOf_eq s o g m t hb]
    by_cases ha : a = o
    · rw [if_pos ha] at h2
      by_cases hi : i = ownerCountOf s o + 1
      · refine ⟨totalOf s + 1, ?_, by omega, by omega⟩
        rw [reg_ownerIdx_eq s o g m t hb hbo, if_pos ⟨ha, hi⟩]
      · obtain ⟨pid, hpid, hb1, hb2⟩ := ho1 a i h1 (by rw [ha]; omega)
        refine ⟨pid, ?_, hb1, by omega⟩
        rw [reg_ownerIdx_eq s o g m t hb hbo, if_neg (by intro hc; exact hi hc.2)]
        exact hpid
    · rw [if_neg ha] at h2
      obtain ⟨pid, hpid, hb1, hb2⟩ := ho1 a i h1 h2
      refine ⟨pid, ?_, hb1, by omega⟩
      rw [reg_ownerIdx_eq s o g m t hb hbo, if_neg (by intro hc; exact ha hc.1)]
      exact hpid
  · intro a i hi
    rw [reg_ownerCountOf_eq s o g m t hbo] at hi
    rw [reg_ownerIdx_eq s o g m t hb hbo]
    by_cases ha : a = o
    · rw [if_pos ha] at hi
      rw [if_neg (by intro hc; omega)]
      exact ho2 a i (by rw [ha]; omega)
    · rw [if_neg ha] at hi
      rw [if_neg (by intro hc; exact ha hc.1)]
      exact ho2 a i hi
  · intro a i j pi pj hi hj hij
    rw [reg_ownerIdx_eq s o g m t hb hbo] at hi hj
    by_cases ha : a = o
    · by_cases hjn : j = ownerCountOf s o + 1
      · rw [if_pos ⟨ha, hjn⟩] at hj
        cases hj
        by_cases hin : i = ownerCountOf s o + 1
        · omega
        · rw [if_neg (by intro hc; exact hin hc.2)] at hi
          have h1i : 1 ≤ i := by
            rcases Nat.eq_zero_or_pos i with h0 | h0
            · rw [ho2 a i (Or.inl h0)] at hi
              cases hi
            · exact h0
          have hle : i ≤ ownerCountOf s a := by
            by_contra hc
            rw [ho2 a i (Or.inr (by omega))] at hi
            cases hi
          obtain ⟨pid, hpid, hb1, hb2⟩ := ho1 a i h1i hle
          rw [hpid] at hi
          cases hi
          omega
      · rw [if_neg (by intro hc; exact hjn hc.2)] at hj
        by_cases hin : i = ownerCountOf s o + 1
        · subst hin
          have hle : j ≤ ownerCountOf s a := by
            by_contra hc
            rw [ho2 a j (Or.inr (by omega))] at hj
            cases hj
          rw [ha] at hle
          omega
        · rw [if_neg (by intro hc; exact hin hc.2)] at hi
          exact ho3 a i j pi pj hi hj hij
    · rw [if_neg (by intro hc; exact ha hc.1)] at hi hj
      exact ho3 a i j pi pj hi hj hij
  · intro g' i h1 h2
    rw [reg_originCountOf_eq s o g m t hbg] at h2
    rw [reg_totalOf_eq s o g m t hb]
    by_cases hg : g' = g
    · rw [if_pos hg] at h2
      by_cases hi : i = originCountOf s g + 1
      · refine ⟨totalOf s + 1, ⟨totalOf s + 1, o, g, true, m, t⟩, ?_, by omega, by omega, ?_, by rw [hg]⟩
        · rw [reg_originIdx_eq s o g m t hb hbg, if_pos ⟨hg, hi⟩]
        · rw [reg_product_eq s o g m t hb, if_pos rfl]
      · obtain ⟨pid, p, hpid, hb1, hb2, hp, horig⟩ := hr1 g' i h1 (by rw [hg]; omega)
        refine ⟨pid, p, ?_, hb1, by omega, ?_, horig⟩
        · rw [reg_originIdx_eq s o g m t hb hbg, if_neg (by intro hc; exact hi hc.2)]
          exact hpid
        · rw [reg_product_eq s o g m t hb, if_neg (by omega)]
          exact hp
    · rw [if_neg hg] at h2
      obtain ⟨pid, p, hpid, hb1, hb2, hp, horig⟩ := hr1 g' i h1 h2
      refine ⟨pid, p, ?_, hb1, by omega, ?_, horig⟩
      · rw [reg_originIdx_eq s o g m t hb hbg, if_neg (by intro hc; exact hg hc.1)]
        exact hpid
      · rw [reg_product_eq s o g m t hb, if_neg (by omega)]
        exact hp
  · intro g' i hi
    rw [reg_originCountOf_eq s o g m t hbg] at hi
    rw [reg_originIdx_eq s o g m t hb hbg]
    by_cases hg : g' = g
    · rw [if_pos hg] at hi
      rw [if_neg (by intro hc; omega)]
      exact hr2 g' i (by rw [hg]; omega)
    · rw [if_neg hg] at hi
      rw [if_neg (by intro hc; exact hg hc.1)]
      exact hr2 g' i hi
  · intro g' i j pi pj hi hj hij
    rw [reg_originIdx_eq s o g m t hb hbg] at hi hj
    by_cases hg : g' = g
    · by_cases hjn : j = originCountOf s g + 1
      · rw [if_pos ⟨hg, hjn⟩] at hj
        cases hj
        by_cases hin : i = originCountOf s g + 1
        · omega
        · rw [if_neg (by intro hc; exact hin hc.2)] at hi
          have h1i : 1 ≤ i := by
            rcases Nat.eq_zero_or_pos i with h0 | h0
            · rw [hr2 g' i (Or.inl h0)] at hi
              cases hi
            · exact h0
          have hle : i ≤ originCountOf s g' := by
            by_contra hc
            rw [hr2 g' i (Or.inr (by omega))] at hi
            cases hi
          obtain ⟨pid, p, hpid, hb1, hb2, _, _⟩ := hr1 g' i h1i hle
          rw [hpid] at hi
          cases hi
          omega
      · rw [if_neg (by intro hc; exact hjn hc.2)] at hj
        by_cases hin : i = originCountOf s g + 1
        · subst hin
          have hle : j ≤ originCountOf s g' := by
            by_contra hc
            rw [hr2 g' j (Or.inr (by omega))] at hj
            cases hj
          rw [hg] at hle
          omega
        · rw [if_neg (by intro hc; exact hin hc.2)] at hi
          exact hr3 g' i j pi pj hi hj hij
    · rw [if_neg (by intro hc; exact hg hc.1)] at hi hj
      exact hr3 g' i j pi pj hi hj hij
  · intro a
    rw [reg_ownerCountOf_eq s o g m t hbo, reg_totalOf_eq s o g m t hb]
    by_cases ha : a = o
    · rw [if_pos ha]
      have := hob o
      omega
    · rw [if_neg ha]
      have := hob a
      omega
  · intro g'
    rw [reg_originCountOf_eq s o g m t hbg, reg_totalOf_eq s o g m t hb]
    by_cases hgz : g' = g
    · rw [if_pos hgz]
      have := hgb g
      omega
    · rw [if_neg hgz]
      have := hgb g'
      omega

/-- Ownership transfer only rewrites the owner of an existing product and
the authorization entries, which the index invariant does not mention. -/
lemma indexInv_xfer (s s' : ContractState) (pid : Nat) (n : Address)
    (q : Product) (hq : s.product pid = some q)
    (hprod : s'.product = fun i =>
      if i = pid then some { q with owner := n } else s.product i)
    (htp : s'.totalProducts = s.totalProducts)
    (hai : s'.allProductsIndex = s.allProductsIndex)
    (hoc : s'.ownerProductCount = s.ownerProductCount)
    (hoi : s'.ownerProductIndex = s.ownerProductIndex)
    (hrc : s'.originProductCount = s.originProductCount)
    (hri : s'.originProductIndex = s.originProductIndex)
    (h : IndexInv s) : IndexInv s' := by
  obtain ⟨hg1, hg2, ho1, ho2, ho3, hr1, hr2, hr3, hob, hgb⟩ := h
  have hpidb : 1 ≤ pid ∧ pid ≤ totalOf s := by
    by_cases h0 : pid = 0 ∨ totalOf s < pid
    · rw [(hg2 pid h0).2] at hq
      cases hq
    · push_neg at h0
      omega
  have hqid : q.id = pid := by
    obtain ⟨_, p, hp, hid⟩ := hg1 pid hpidb.1 hpidb.2
    rw [hq] at hp
    cases hp
    exact hid
  have htot : totalOf s' = totalOf s := by
    unfold totalOf
    rw [htp]
  have hocf : ∀ a, ownerCountOf s' a = ownerCountOf s a := by
    intro a
    unfold ownerCountOf
    rw [hoc]
  have hrcf : ∀ g, originCountOf s' g = originCountOf s g := by
    intro g
    unfold originCountOf
    rw [hrc]
  unfold IndexInv
  simp only [htot, hai, hoi, hri, hocf, hrcf, hprod]
  refine ⟨?_, ?_, ?_, ?_, ?_, ?_, ?_, ?_, ?_, ?_⟩
  · intro i h1 h2
    refine ⟨(hg1 i h1 h2).1, ?_⟩
    by_cases hi : i = pid
    · exact ⟨{ q with owner := n }, by simp [hi], by simp [hqid, hi]⟩
    · obtain ⟨_, p, hp, hid⟩ := hg1 i h1 h2
      exact ⟨p, by simp [hi, hp], hid⟩
  · intro i hi
    refine ⟨(hg2 i hi).1, ?_⟩
    have hip : i ≠ pid := by omega
    simp only [hip, ite_false, if_false]
    exact (hg2 i hi).2
  · exact ho1
  · exact ho2
  · exact ho3
  · intro g i h1 h2
    obtain ⟨pid', p, hpid, hb1, hb2, hp, horig⟩ := hr1 g i h1 h2
    by_cases hip : pid' = pid
    · subst hip
      rw [hq] at hp
      cases hp
      exact ⟨pid', { q with owner := n }, hpid, hb1, hb2, by simp, by simpa using horig⟩
    · exact ⟨pid', p, hpid, hb1, hb2, by simp [hip, hp], horig⟩
  · exact hr2
  · exact hr3
  · exact hob
  · exact hgb

lemma indexInv_xfer_op (s : ContractState) (o : Address) (pid : Nat)
    (n : Address) (h : IndexInv s) : IndexInv (transfer_product s o pid n).2 := by
  cases hq : s.product pid with
  | none =>
    rw [transfer_product_none s o pid n hq]
    exact h
  | some q =>
    by_cases hqo : q.owner = o
    · rw [transfer_product_ok s o pid n q hq hqo]
      exact indexInv_xfer s _ pid n q hq rfl rfl rfl rfl rfl rfl rfl h
    · rw [transfer_product_unauth s o pid n q hq hqo]
      exact h

lemma indexInv_grant_op (s : ContractState) (o : Address) (pid : Nat)
    (x : Address) (h : IndexInv s) :
    IndexInv (add_authorized_actor s o pid x).2 := by
  cases hq : s.product pid with
  | none =>
    rw [add_authorized_actor_none s o pid x hq]
    exact h
  | some q =>
    by_cases hqo : q.owner = o
    · rw [add_authorized_actor_ok s o pid x q hq hqo]
      exact indexInv_congr s _ rfl rfl rfl rfl rfl rfl rfl h
    · rw [add_authorized_actor_unauth s o pid x q hq hqo]
      exact h

lemma indexInv_revoke_op (s : ContractState) (o : Address) (pid : Nat)
    (x : Address) (h : IndexInv s) :
    IndexInv (remove_authorized_actor s o pid x).2 := by
  cases hq : s.product pid with
  | none =>
    rw [remove_authorized_actor_none s o pid x hq]
    exact h
  | some q =>
    by_cases hqo : q.owner = o
    · rw [remove_authorized_actor_ok s o pid x q hq hqo]
      exact indexInv_congr s _ rfl rfl rfl rfl rfl rfl rfl h
    · rw [remove_authorized_actor_unauth s o pid x q hq hqo]
      exact h

lemma xfer_counts (s : ContractState) (o : Address) (pid : Nat) (n : Address) :
    totalOf (transfer_product s o pid n).2 = totalOf s ∧
    (transfer_product s o pid n).2.ownerProductCount = s.ownerProductCount ∧
    (transfer_product s o pid n).2.originProductCount = s.originProductCount := by
  cases hq : s.product pid with
  | none =>
    rw [transfer_product_none s o pid n hq]
    exact ⟨rfl, rfl, rfl⟩
  | some q =>
    by_cases hqo : q.owner = o
    · rw [transfer_product_ok s o pid n q hq hqo]
      exact ⟨rfl, rfl, rfl⟩
    · rw [transfer_product_unauth s o pid n q hq hqo]
      exact ⟨rfl, rfl, rfl⟩

lemma grant_counts (s : ContractState) (o : Address) (pid : Nat) (x : Address) :
    totalOf (add_authorized_actor s o pid x).2 = totalOf s ∧
    (add_authorized_actor s o pid x).2.ownerProductCount = s.ownerProductCount ∧
    (add_authorized_actor s o pid x).2.originProductCount = s.originProductCount := by
  cases hq : s.product pid with
  | none =>
    rw [add_authorized_actor_none s o pid x hq]
    exact ⟨rfl, rfl, rfl⟩
  | some q =>
    by_cases hqo : q.owner = o
    · rw [add_authorized_actor_ok s o pid x q hq hqo]
      exact ⟨rfl, rfl, rfl⟩
    · rw [add_authorized_actor_unauth s o pid x q hq hqo]
      exact ⟨rfl, rfl, rfl⟩

lemma revoke_counts (s : ContractState) (o : Address) (pid : Nat) (x : Address) :
    totalOf (remove_authorized_actor s o pid x).2 = totalOf s ∧
    (remove_authorized_actor s o pid x).2.ownerProductCount = s.ownerProductCount ∧
    (remove_authorized_actor s o pid x).2.originProductCount = s.originProductCount := by
  cases hq : s.product pid with
  | none =>
    rw [remove_authorized_actor_none s o pid x hq]
    exact ⟨rfl, rfl, rfl⟩
  | some q =>
    by_cases hqo : q.owner = o
    · rw [remove_authorized_actor_ok s o pid x q hq hqo]
      exact ⟨rfl, rfl, rfl⟩
    · rw [remove_authorized_actor_unauth s o pid x q hq hqo]
      exact ⟨rfl, rfl, rfl⟩

/-- One bounded induction over a trace: as long as fewer than `2 ^ 64`
registrations occur, the index invariant holds and every counter equals
the exact number of registrations under its key. -/
lemma run_spec (τ : List Event) :
    ∀ s : ContractState, IndexInv s → totalOf s + regCount τ < U64 →
      IndexInv (τ.foldl step s) ∧
      totalOf (τ.foldl step s) = totalOf s + regCount τ ∧
      (∀ a, ownerCountOf (τ.foldl step s) a
        = ownerCountOf s a + regCountByOwner a τ) ∧
      (∀ g, originCountOf (τ.foldl step s) g
        = originCountOf s g + regCountByOrigin g τ) := by
  induction τ with
  | nil =>
    intro s h _
    exact ⟨h, by simp [regCount], fun a => by simp [regCountByOwner],
      fun g => by simp [regCountByOrigin]⟩
  | cons e τ ih =>
    intro s h hb
    rw [List.foldl_cons]
    cases e with
    | reg o g m t =>
      have hrc : regCount (Event.reg o g m t :: τ) = regCount τ + 1 := rfl
      rw [hrc] at hb
      have hbr : totalOf s + 1 < U64 := by omega
      have hInv1 : IndexInv (step s (Event.reg o g m t)) :=
        indexInv_reg s o g m t hbr h
      have htot1 : totalOf (step s (Event.reg o g m t)) = totalOf s + 1 :=
        reg_totalOf_eq s o g m t hbr
      obtain ⟨ih1, ih2, ih3, ih4⟩ :=
        ih (step s (Event.reg o g m t)) hInv1 (by rw [htot1]; omega)
      refine ⟨ih1, ?_, ?_, ?_⟩
      · rw [ih2, htot1, hrc]
        omega
      · intro a
        rw [ih3 a]
        have hbo : ownerCountOf s o + 1 < U64 := by
          obtain ⟨_, _, _, _, _, _, _, _, hob, _⟩ := h
          have := hob o
          omega
        have hstep : ownerCountOf (step s (Event.reg o g m t)) a =
            if a = o then ownerCountOf s o + 1 else ownerCountOf s a :=
          reg_ownerCountOf_eq s o g m t hbo a
        have hrco : regCountByOwner a (Event.reg o g m t :: τ)
            = (if a = o then 1 else 0) + regCountByOwner a τ := rfl
        rw [hstep, hrco]
        by_cases ha : a = o
        · rw [if_pos ha, if_pos ha, ha]
          omega
        · rw [if_neg ha, if_neg ha]
          omega
      · intro g'
        rw [ih4 g']
        have hbg : originCountOf s g + 1 < U64 := by
          obtain ⟨_, _, _, _, _, _, _, _, _, hgb⟩ := h
          have := hgb g
          omega
        have hstep : originCountOf (step s (Event.reg o g m t)) g' =
            if g' = g then originCountOf s g + 1 else originCountOf s g' :=
          reg_originCountOf_eq s o g m t hbg g'
        have hrcg : regCountByOrigin g' (Event.reg o g m t :: τ)
            = (if g' = g then 1 else 0) + regCountByOrigin g' τ := rfl
        rw [hstep, hrcg]
        by_cases hgz : g' = g
        · rw [if_pos hgz, if_pos hgz, hgz]
          omega
        · rw [if_neg hgz, if_neg hgz]
          omega
    | xfer o pid n =>
      obtain ⟨h1, h2, h3⟩ := xfer_counts s o pid n
      have hrc : regCount (Event.xfer o pid n :: τ) = regCount τ := rfl
      rw [hrc] at hb
      have hInv1 : IndexInv (step s (Event.xfer o pid n)) :=
        indexInv_xfer_op s o pid n h
      have htot1 : totalOf (step s (Event.xfer o pid n)) = totalOf s := h1
      obtain ⟨ih1, ih2, ih3, ih4⟩ :=
        ih (step s (Event.xfer o pid n)) hInv1 (by rw [htot1]; omega)
      refine ⟨ih1, ?_, ?_, ?_⟩
      · rw [ih2, htot1, hrc]
      · intro a
        rw [ih3 a]
        have hstep : ownerCountOf (step s (Event.xfer o pid n)) a
            = ownerCountOf s a := by
          show ownerCountOf (transfer_product s o pid n).2 a = ownerCountOf s a
          unfold ownerCountOf
          rw [h2]
        have hrco : regCountByOwner a (Event.xfer o pid n :: τ)
            = regCountByOwner a τ := rfl
        rw [hstep, hrco]
      · intro g'
        rw [ih4 g']
        have hstep : originCountOf (step s (Event.xfer o pid n)) g'
            = originCountOf s g' := by
          show originCountOf (transfer_product s o pid n).2 g'
            = originCountOf s g'
          unfold originCountOf
          rw [h3]
        have hrcg : regCountByOrigin g' (Event.xfer o pid n :: τ)
            = regCountByOrigin g' τ := rfl
        rw [hstep, hrcg]
    | grant o pid x =>
      obtain ⟨h1, h2, h3⟩ := grant_counts s o pid x
      have hrc : regCount (Event.grant o pid x :: τ) = regCount τ := rfl
      rw [hrc] at hb
      have hInv1 : IndexInv (step s (Event.grant o pid x)) :=
        indexInv_grant_op s o pid x h
      have htot1 : totalOf (step s (Event.grant o pid x)) = totalOf s := h1
      obtain ⟨ih1, ih2, ih3, ih4⟩ :=
        ih (step s (Event.grant o pid x)) hInv1 (by rw [htot1]; omega)
      refine ⟨ih1, ?_, ?_, ?_⟩
      · rw [ih2, htot1, hrc]
      · intro a
        rw [ih3 a]
        have hstep : ownerCountOf (step s (Event.grant o pid x)) a
            = ownerCountOf s a := by
          show ownerCountOf (add_authorized_actor s o pid x).2 a
            = ownerCountOf s a
          unfold ownerCountOf
          rw [h2]
        have hrco : regCountByOwner a (Event.grant o pid x :: τ)
            = regCountByOwner a τ := rfl
        rw [hstep, hrco]
      · intro g'
        rw [ih4 g']
        have hstep : originCountOf (step s (Event.grant o pid x)) g'
            = originCountOf s g' := by
          show originCountOf (add_authorized_actor s o pid x).2 g'
            = originCountOf s g'
          unfold originCountOf
          rw [h3]
        have hrcg : regCountByOrigin g' (Event.grant o pid x :: τ)
            = regCountByOrigin g' τ := rfl
        rw [hstep, hrcg]
    | revoke o pid x =>
      obtain ⟨h1, h2, h3⟩ := revoke_counts s o pid x
      have hrc : regCount (Event.revoke o pid x :: τ) = regCount τ := rfl
      rw [hrc] at hb
      have hInv1 : IndexInv (step s (Event.revoke o pid x)) :=
        indexInv_revoke_op s o pid x h
      have htot1 : totalOf (step s (Event.revoke o pid x)) = totalOf s := h1
      obtain ⟨ih1, ih2, ih3, ih4⟩ :=
        ih (step s (Event.revoke o pid x)) hInv1 (by rw [htot1]; omega)
      refine ⟨ih1, ?_, ?_, ?_⟩
      · rw [ih2, htot1, hrc]
      · intro a
        rw [ih3 a]
        have hstep : ownerCountOf (step s (Event.revoke o pid x)) a
            = ownerCountOf s a := by
          show ownerCountOf (remove_authorized_actor s o pid x).2 a
            = ownerCountOf s a
          unfold ownerCountOf
          rw [h2]
        have hrco : regCountByOwner a (Event.revoke o pid x :: τ)
            = regCountByOwner a τ := rfl
        rw [hstep, hrco]
      · intro g'
        rw [ih4 g']
        have hstep : originCountOf (step s (Event.revoke o pid x)) g'
            = originCountOf s g' := by
          show originCountOf (remove_authorized_actor s o pid x).2 g'
            = originCountOf s g'
          unfold originCountOf
          rw [h3]
        have hrcg : regCountByOrigin g' (Event.revoke o pid x :: τ)
            = regCountByOrigin g' τ := rfl
        rw [hstep, hrcg]

lemma ownerDim_mono (s : ContractState) (h : IndexInv s) (a : Address) :
    ∀ j k p q, j < k →
      (s.ownerProductIndex a j).bind s.product = some p →
      (s.ownerProductIndex a k).bind s.product = some q → p.id < q.id := by
  obtain ⟨hg1, hg2, ho1, ho2, ho3, hr1, hr2, hr3, hob, hgb⟩ := h
  intro j k p q hjk hj hk
  rcases Option.bind_eq_some.mp hj with ⟨pidj, hidxj, hprodj⟩
  rcases Option.bind_eq_some.mp hk with ⟨pidk, hidxk, hprodk⟩
  have hjb : 1 ≤ j ∧ j ≤ ownerCountOf s a := by
    by_cases h0 : j = 0 ∨ ownerCountOf s a < j
    · rw [ho2 a j h0] at hidxj
      cases hidxj
    · push_neg at h0
      omega
  have hkb : 1 ≤ k ∧ k ≤ ownerCountOf s a := by
    by_cases h0 : k = 0 ∨ ownerCountOf s a < k
    · rw [ho2 a k h0] at hidxk
      cases hidxk
    · push_neg at h0
      omega
  obtain ⟨pidj', hj', hb1j, hb2j⟩ := ho1 a j hjb.1 hjb.2
  rw [hidxj] at hj'
  cases hj'
  obtain ⟨pidk', hk', hb1k, hb2k⟩ := ho1 a k hkb.1 hkb.2
  rw [hidxk] at hk'
  cases hk'
  have hpj : p.id = pidj := by
    obtain ⟨_, p', hp', hid⟩ := hg1 pidj hb1j hb2j
    rw [hprodj] at hp'
    cases hp'
    exact hid
  have hpk : q.id = pidk := by
    obtain ⟨_, p', hp', hid⟩ := hg1 pidk hb1k hb2k
    rw [hprodk] at hp'
    cases hp'
    exact hid
  have := ho3 a j k pidj pidk hidxj hidxk hjk
  omega

lemma originDim_mono (s : ContractState) (h : IndexInv s) (g : String) :
    ∀ j k p q, j < k →
      (s.originProductIndex g j).bind s.product = some p →
      (s.originProductIndex g k).bind s.product = some q → p.id < q.id := by
  obtain ⟨hg1, hg2, ho1, ho2, ho3, hr1, hr2, hr3, hob, hgb⟩ := h
  intro j k p q hjk hj hk
  rcases Option.bind_eq_some.mp hj with ⟨pidj, hidxj, hprodj⟩
  rcases Option.bind_eq_some.mp hk with ⟨pidk, hidxk, hprodk⟩
  have hjb : 1 ≤ j ∧ j ≤ originCountOf s g := by
    by_cases h0 : j = 0 ∨ originCountOf s g < j
    · rw [hr2 g j h0] at hidxj
      cases hidxj
    · push_neg at h0
      omega
  have hkb : 1 ≤ k ∧ k ≤ originCountOf s g := by
    by_cases h0 : k = 0 ∨ originCountOf s g < k
    · rw [hr2 g k h0] at hidxk
      cases hidxk
    · push_neg at h0
      omega
  obtain ⟨pidj', pj', hj', hb1j, hb2j, _, _⟩ := hr1 g j hjb.1 hjb.2
  rw [hidxj] at hj'
  cases hj'
  obtain ⟨pidk', pk', hk', hb1k, hb2k, _, _⟩ := hr1 g k hkb.1 hkb.2
  rw [hidxk] at hk'
  cases hk'
  have hpj : p.id = pidj := by
    obtain ⟨_, p', hp', hid⟩ := hg1 pidj hb1j hb2j
    rw [hprodj] at hp'
    cases hp'
    exact hid
  have hpk : q.id = pidk := by
    obtain ⟨_, p', hp', hid⟩ := hg1 pidk hb1k hb2k
    rw [hprodk] at hp'
    cases hp'
    exact hid
  have := hr3 g j k pidj pidk hidxj hidxk hjk
  omega

lemma by_origin_only_origin (s : ContractState) (h : IndexInv s) (g : String)
    (start limit : Nat) (p : Product)
    (hp : p ∈ get_products_by_origin s g start limit) : p.origin = g := by
  obtain ⟨hg1, hg2, ho1, ho2, ho3, hr1, hr2, hr3, hob, hgb⟩ := h
  unfold get_products_by_origin at hp
  obtain ⟨j, hj1, hj2, hj3⟩ := collectRange_mem _ _ _ _ p hp
  rcases Option.bind_eq_some.mp hj3 with ⟨pid, hidx, hprod⟩
  have hjb : 1 ≤ j ∧ j ≤ originCountOf s g := by
    by_cases h0 : j = 0 ∨ originCountOf s g < j
    · rw [hr2 g j h0] at hidx
      cases hidx
    · push_neg at h0
      omega
  obtain ⟨pid', p', hpid', hb1, hb2, hp', horig⟩ := hr1 g j hjb.1 hjb.2
  rw [hidx] at hpid'
  cases hpid'
  rw [hprod] at hp'
  cases hp'
  exact horig

/-- Claim C1, counterexample: registering product 1 to address 0, transferring it to 1 and then from 1 to 2 leaves address 1 unauthorized — the second transfer removes the delegated entry the first transfer granted to 1, refuting that the entry survives a further transfer. -/
theorem c1_counterexample :
    (0 : Address) ≠ 1 ∧ (1 : Address) ≠ 2 ∧
    (transfer_product cxS1 0 1 1).1 = Except.ok () ∧
    (transfer_product (transfer_product cxS1 0 1 1).2 1 1 2).1 = Except.ok () ∧
    is_authorized (transfer_product (transfer_product cxS1 0 1 1).2 1 1 2).2 1 1 = false := by
  decide

/-- Claim C1, amended: after transfer_product(A, id, B) and a subsequent successful transfer_product(B, id, C) with B ≠ C, the delegated entry granted to B is removed (B is then the previous owner, whose entry the transfer deletes), so is_authorized(id, B) is false. -/
theorem c1_amended (s : ContractState) (A B C : Address) (id : Nat)
    (_hAB : A ≠ B) (hBC : B ≠ C)
    (_h1 : (transfer_product s A id B).1 = Except.ok ())
    (h2 : (transfer_product (transfer_product s A id B).2 B id C).1 = Except.ok ()) :
    is_authorized (transfer_product (transfer_product s A id B).2 B id C).2 id B = false := by
  generalize (transfer_product s A id B).2 = s1 at h2 ⊢
  cases hq : s1.product id with
  | none => simp [transfer_product, hq] at h2
  | some q =>
    by_cases hqB : q.owner = B
    · simp [transfer_product, hq, hqB, is_authorized, hBC, Ne.symm hBC]
    · simp [transfer_product, hq, hqB] at h2

/-- Claim C1, witness: the amended statement instantiated on the concrete two-transfer chain 0 → 1 → 2 over product 1. -/
theorem c1_witness :
    (0 : Address) ≠ 1 ∧ (1 : Address) ≠ 2 ∧
    (transfer_product cxS1 0 1 1).1 = Except.ok () ∧
    (transfer_product (transfer_product cxS1 0 1 1).2 1 1 2).1 = Except.ok () ∧
    is_authorized (transfer_product (transfer_product cxS1 0 1 1).2 1 1 2).2 1 1 = false :=
  ⟨by decide, by decide, by decide, by decide,
   c1_amended cxS1 0 1 2 1 (by decide) (by decide) (by decide) (by decide)⟩

/-- Claim C2: in every reachable state, is_authorized(product_id, actor) is true exactly when the actor owns an existing product record or a delegated entry is stored as true, and it is false — not an error — whenever no product record exists. -/
theorem c2_is_authorized (τ : List Event) (pid : Nat) (a : Address) :
    (is_authorized (run τ) pid a = true ↔
      ((∃ p, (run τ).product pid = some p ∧ p.owner = a) ∨
        (run τ).auth pid a = some true)) ∧
    ((run τ).product pid = none → is_authorized (run τ) pid a = false) := by
  constructor
  · cases hq : (run τ).product pid with
    | none =>
      cases hauth : (run τ).auth pid a with
      | none => simp [is_authorized, hq, hauth]
      | some b => cases b <;> simp [is_authorized, hq, hauth]
    | some q =>
      by_cases hqa : q.owner = a
      · simp [is_authorized, hq, hqa]
      · cases hauth : (run τ).auth pid a with
        | none => simp [is_authorized, hq, hqa, hauth]
        | some b => cases b <;> simp [is_authorized, hq, hqa, hauth]
  · intro hnone
    cases hauth : (run τ).auth pid a with
    | none => simp [is_authorized, hnone, hauth]
    | some b =>
      obtain ⟨p, hp⟩ := authNeedsProduct_run τ pid a b hauth
      rw [hnone] at hp
      cases hp

/-- Claim C2, witness: the statement instantiated at the state reached by one registration, queried at a nonexistent product id. -/
theorem c2_witness :
    (is_authorized (run [Event.reg 0 "o" "m" 0]) 2 3 = true ↔
      ((∃ p, (run [Event.reg 0 "o" "m" 0]).product 2 = some p ∧ p.owner = 3) ∨
        (run [Event.reg 0 "o" "m" 0]).auth 2 3 = some true)) ∧
    ((run [Event.reg 0 "o" "m" 0]).product 2 = none →
      is_authorized (run [Event.reg 0 "o" "m" 0]) 2 3 = false) :=
  c2_is_authorized [Event.reg 0 "o" "m" 0] 2 3

/-- Claim C3, counterexample: a self-transfer (new_owner = owner) of product 1 succeeds and leaves is_authorized(1, owner) true even though the owner held no delegated entry before, refuting the old-owner-deauthorized clause for arbitrary new_owner. -/
theorem c3_counterexample :
    cxS1.product 1 = some ⟨1, 0, "o", true, "m", 0⟩ ∧
    cxS1.auth 1 0 = none ∧
    (transfer_product cxS1 0 1 0).1 = Except.ok () ∧
    is_authorized (transfer_product cxS1 0 1 0).2 1 0 = true := by
  decide

/-- Claim C3, amended: for an existing product owned by `owner`, transfer_product(owner, id, new_owner) succeeds, get_product(id) then has owner new_owner, is_authorized(id, new_owner) is true, and whenever new_owner ≠ owner, is_authorized(id, owner) is false. -/
theorem c3_amended (s : ContractState) (id : Nat) (owner new_owner : Address)
    (p : Product) (hp : s.product id = some p) (ho : p.owner = owner) :
    (transfer_product s owner id new_owner).1 = Except.ok () ∧
    (get_product (transfer_product s owner id new_owner).2 id).map Product.owner
      = some new_owner ∧
    is_authorized (transfer_product s owner id new_owner).2 id new_owner = true ∧
    (new_owner ≠ owner →
      is_authorized (transfer_product s owner id new_owner).2 id owner = false) := by
  refine ⟨?_, ?_, ?_, ?_⟩
  · simp [transfer_product, hp, ho]
  · simp [transfer_product, hp, ho, get_product]
  · simp [transfer_product, hp, ho, is_authorized]
  · intro hno
    simp [transfer_product, hp, ho, is_authorized, hno, Ne.symm hno]

/-- Claim C3, witness: the amended statement instantiated on the concrete transfer of product 1 from address 0 to address 5. -/
theorem c3_witness :
    cxS1.product 1 = some ⟨1, 0, "o", true, "m", 0⟩ ∧
    (⟨1, 0, "o", true, "m", 0⟩ : Product).owner = 0 ∧
    ((transfer_product cxS1 0 1 5).1 = Except.ok () ∧
     (get_product (transfer_product cxS1 0 1 5).2 1).map Product.owner = some 5 ∧
     is_authorized (transfer_product cxS1 0 1 5).2 1 5 = true ∧
     ((5 : Address) ≠ 0 → is_authorized (transfer_product cxS1 0 1 5).2 1 0 = false)) :=
  ⟨by decide, by decide, c3_amended cxS1 1 0 5 ⟨1, 0, "o", true, "m", 0⟩ (by decide) (by decide)⟩

/-- Claim C4: a successful transfer never touches the delegated entry of a third party X (distinct from the previous and the new owner): Auth(product_id, X) and is_authorized(product_id, X) are unchanged, so an actor delegated before the transfer stays authorized after it. -/
theorem c4_transfer_frame (s : ContractState) (owner : Address) (id : Nat)
    (new_owner X : Address)
    (hok : (transfer_product s owner id new_owner).1 = Except.ok ())
    (hX1 : X ≠ owner) (hX2 : X ≠ new_owner) :
    (transfer_product s owner id new_owner).2.auth id X = s.auth id X ∧
    is_authorized (transfer_product s owner id new_owner).2 id X
      = is_authorized s id X ∧
    (s.auth id X = some true →
      is_authorized (transfer_product s owner id new_owner).2 id X = true) := by
  cases hq : s.product id with
  | none => simp [transfer_product, hq] at hok
  | some q =>
    by_cases hqo : q.owner = owner
    · have hXq : X ≠ q.owner := hqo ▸ hX1
      refine ⟨?_, ?_, ?_⟩
      · simp [transfer_product, hq, hqo, hX1, hX2, hXq]
      · simp [transfer_product, hq, hqo, is_authorized, hX1, hX2, hXq,
          Ne.symm hX1, Ne.symm hXq, Ne.symm hX2]
      · intro hd
        simp [transfer_product, hq, hqo, is_authorized, hX1, hX2, hXq,
          Ne.symm hX1, Ne.symm hXq, Ne.symm hX2, hd]
    · simp [transfer_product, hq, hqo] at hok

/-- Claim C4, witness: the frame property instantiated on a state where address 7 is delegated on product 1 and the product is transferred from 0 to 1. -/
theorem c4_witness :
    (transfer_product cxS2 0 1 1).1 = Except.ok () ∧
    (7 : Address) ≠ 0 ∧ (7 : Address) ≠ 1 ∧
    ((transfer_product cxS2 0 1 1).2.auth 1 7 = cxS2.auth 1 7 ∧
     is_authorized (transfer_product cxS2 0 1 1).2 1 7 = is_authorized cxS2 1 7 ∧
     (cxS2.auth 1 7 = some true →
       is_authorized (transfer_product cxS2 0 1 1).2 1 7 = true)) :=
  ⟨by decide, by decide, by decide,
   c4_transfer_frame cxS2 0 1 1 7 (by decide) (by decide) (by decide)⟩

/-- Claim C5, counterexample: the owner delegating itself and then removing that delegation leaves is_authorized true (implicit ownership), refuting the round-trip back to false for every actor. -/
theorem c5_counterexample :
    cxS1.product 1 = some ⟨1, 0, "o", true, "m", 0⟩ ∧
    (add_authorized_actor cxS1 0 1 0).1 = Except.ok () ∧
    (remove_authorized_actor (add_authorized_actor cxS1 0 1 0).2 0 1 0).1 = Except.ok () ∧
    is_authorized
      (remove_authorized_actor (add_authorized_actor cxS1 0 1 0).2 0 1 0).2 1 0 = true := by
  decide

/-- Claim C5, amended: for an existing product owned by O, add_authorized_actor(O, id, X) succeeds and makes is_authorized(id, X) true; a subsequent remove_authorized_actor(O, id, X) succeeds and reverts is_authorized(id, X) to false for every X other than the owner O, whose implicit authorization persists. -/
theorem c5_amended (s : ContractState) (id : Nat) (O X : Address) (p : Product)
    (hp : s.product id = some p) (ho : p.owner = O) :
    (add_authorized_actor s O id X).1 = Except.ok () ∧
    is_authorized (add_authorized_actor s O id X).2 id X = true ∧
    (remove_authorized_actor (add_authorized_actor s O id X).2 O id X).1 = Except.ok () ∧
    (X ≠ O →
      is_authorized
        (remove_authorized_actor (add_authorized_actor s O id X).2 O id X).2 id X = false) := by
  refine ⟨?_, ?_, ?_, ?_⟩
  · simp [add_authorized_actor, hp, ho]
  · simp [add_authorized_actor, hp, ho, is_authorized]
  · simp [add_authorized_actor, remove_authorized_actor, hp, ho]
  · intro hXO
    simp [add_authorized_actor, remove_authorized_actor, hp, ho, is_authorized, Ne.symm hXO]

/-- Claim C5, witness: the amended add/remove round trip instantiated with owner 0 and actor 7 on product 1. -/
theorem c5_witness :
    cxS1.product 1 = some ⟨1, 0, "o", true, "m", 0⟩ ∧
    (⟨1, 0, "o", true, "m", 0⟩ : Product).owner = 0 ∧
    ((add_authorized_actor cxS1 0 1 7).1 = Except.ok () ∧
     is_authorized (add_authorized_actor cxS1 0 1 7).2 1 7 = true ∧
     (remove_authorized_actor (add_authorized_actor cxS1 0 1 7).2 0 1 7).1 = Except.ok () ∧
     ((7 : Address) ≠ 0 →
       is_authorized
         (remove_authorized_actor (add_authorized_actor cxS1 0 1 7).2 0 1 7).2 1 7 = false)) :=
  ⟨by decide, by decide, c5_amended cxS1 1 0 7 ⟨1, 0, "o", true, "m", 0⟩ (by decide) (by decide)⟩

/-- Claim C6, counterexample: with one registered product, get_all_products called with start = 2^64 − 1 (a value at or past the count) returns a nonempty sequence, because start_index = start + 1 wraps to 0 in u64 arithmetic. -/
theorem c6_counterexample :
    totalOf cxS1 = 1 ∧ 1 ≤ 2 ^ 64 - 1 ∧
    get_all_products cxS1 (2 ^ 64 - 1) 2 ≠ [] := by
  refine ⟨by decide, by decide, by decide⟩

/-- Claim C6, amended: the three listing operations are total (they never raise an error); they return the empty sequence for limit = 0, and for start at or past the dimension's count provided start + 1 does not wrap (start < 2^64 − 1). -/
theorem c6_amended (s : ContractState) (owner : Address) (origin : String)
    (start limit : Nat) :
    (limit = 0 →
      get_all_products s start limit = [] ∧
      get_products_by_owner s owner start limit = [] ∧
      get_products_by_origin s origin start limit = []) ∧
    (start + 1 < U64 →
      (totalOf s ≤ start → get_all_products s start limit = []) ∧
      (ownerCountOf s owner ≤ start → get_products_by_owner s owner start limit = []) ∧
      (originCountOf s origin ≤ start → get_products_by_origin s origin start limit = [])) := by
  constructor
  · rintro rfl
    simp [get_all_products, get_products_by_owner, get_products_by_origin, collectRange]
  · intro hlt
    have hmod : (start + 1) % U64 = start + 1 := Nat.mod_eq_of_lt hlt
    refine ⟨fun h => ?_, fun h => ?_, fun h => ?_⟩ <;>
      simp only [get_all_products, get_products_by_owner, get_products_by_origin, hmod] <;>
      exact collectRange_nil_of_lt _ _ _ (Nat.lt_succ_of_le h)

/-- Claim C6, witness: the amended statement instantiated on the one-product state with start 5 and limit 0. -/
theorem c6_witness :
    ((0 : Nat) = 0 →
      get_all_products cxS1 5 0 = [] ∧
      get_products_by_owner cxS1 0 5 0 = [] ∧
      get_products_by_origin cxS1 "o" 5 0 = []) ∧
    (5 + 1 < U64 →
      (totalOf cxS1 ≤ 5 → get_all_products cxS1 5 0 = []) ∧
      (ownerCountOf cxS1 0 ≤ 5 → get_products_by_owner cxS1 0 5 0 = []) ∧
      (originCountOf cxS1 "o" ≤ 5 → get_products_by_origin cxS1 "o" 5 0 = [])) :=
  c6_amended cxS1 0 "o" 5 0

/-- Claim C7, counterexample: after one registration (N = 1), the window start k = 2^64 − 1 ≥ N with limit 2 returns a nonempty sequence instead of the claimed empty one, because k + 1 wraps to 0. -/
theorem c7_counterexample :
    (runRegs initState [⟨0, "o", "m", 0⟩]).1 = [1] ∧
    (1 : Nat) ≤ 2 ^ 64 - 1 ∧
    get_all_products (runRegs initState [⟨0, "o", "m", 0⟩]).2 (2 ^ 64 - 1) 2 ≠ [] := by
  decide

/-- Claim C7, amended: for every sequence of N registrations with N + 1 < 2^64, the returned ids are exactly 1..N in order, get_stats reports N total products, get_all_products(0, N) is exactly the N registered products in order, get_all_products(k, m) is empty for N ≤ k < 2^64 − 1, and any windows tiling [0, N) concatenate to the full listing. -/
theorem c7_amended (cs : List RegCall) (hN : cs.length + 1 < U64) :
    (runRegs initState cs).1 = List.range' 1 cs.length ∧
    (get_stats (runRegs initState cs).2).total_products = cs.length ∧
    get_all_products (runRegs initState cs).2 0 cs.length = producedList 0 cs ∧
    (∀ k m, cs.length ≤ k → k + 1 < U64 →
      get_all_products (runRegs initState cs).2 k m = []) ∧
    (∀ ws, Tiles 0 cs.length ws →
      (ws.map (fun w => get_all_products (runRegs initState cs).2 w.1 w.2)).flatten
        = get_all_products (runRegs initState cs).2 0 cs.length) := by
  have htot0 : totalOf initState = 0 := rfl
  have hbound : totalOf initState + cs.length < U64 := by
    rw [htot0]
    omega
  have htotN : totalOf (runRegs initState cs).2 = cs.length := by
    rw [runRegs_total cs initState hbound, htot0]
    omega
  refine ⟨?_, ?_, ?_, ?_, ?_⟩
  · rw [runRegs_fst cs initState hbound, htot0]
  · show totalOf (runRegs initState cs).2 = cs.length
    exact htotN
  · rw [get_all_products_eq_collect _ _ _ (by omega)]
    have := collect_runRegs cs initState hbound
    rw [htot0] at this
    exact this
  · intro k m hk hk1
    simp only [get_all_products, Nat.mod_eq_of_lt hk1]
    exact collectRange_nil_of_lt _ _ _ (by rw [htotN]; omega)
  · intro ws hws
    have hmap : ws.map (fun w => get_all_products (runRegs initState cs).2 w.1 w.2)
        = ws.map (fun w =>
            collectRange
              (fun i => ((runRegs initState cs).2.allProductsIndex i).bind
                (runRegs initState cs).2.product)
              (totalOf (runRegs initState cs).2) (w.1 + 1) w.2) := by
      apply List.map_congr_left
      intro w hw
      have hb := Tiles.window_le ws 0 cs.length hws w hw
      exact get_all_products_eq_collect _ _ _ (by omega)
    rw [hmap, tiles_join _ _ ws 0 cs.length hws]
    rw [get_all_products_eq_collect _ _ _ (by omega)]
    simp

/-- Claim C7, witness: the amended statement instantiated on two concrete registrations. -/
theorem c7_witness :
    c7cs.length + 1 < U64 ∧
    ((runRegs initState c7cs).1 = List.range' 1 c7cs.length ∧
     (get_stats (runRegs initState c7cs).2).total_products = c7cs.length ∧
     get_all_products (runRegs initState c7cs).2 0 c7cs.length = producedList 0 c7cs ∧
     (∀ k m, c7cs.length ≤ k → k + 1 < U64 →
       get_all_products (runRegs initState c7cs).2 k m = []) ∧
     (∀ ws, Tiles 0 c7cs.length ws →
       (ws.map (fun w => get_all_products (runRegs initState c7cs).2 w.1 w.2)).flatten
         = get_all_products (runRegs initState c7cs).2 0 c7cs.length)) :=
  ⟨by decide, c7_amended c7cs (by decide)⟩

/-- Claim C8, counterexample: register product 1 to owner 0, then transfer it to 1: the owner dimension of key 0 still has count 1 and position 1 mapping to product 1, whose current owner is 1, and get_products_by_owner(0) returns that product — refuting that owner-index positions always match the current owner. -/
theorem c8_counterexample :
    (0 : Address) ≠ 1 ∧
    ownerCountOf (run [Event.reg 0 "x" "m" 0, Event.xfer 0 1 1]) 0 = 1 ∧
    (run [Event.reg 0 "x" "m" 0, Event.xfer 0 1 1]).ownerProductIndex 0 1 = some 1 ∧
    ((run [Event.reg 0 "x" "m" 0, Event.xfer 0 1 1]).product 1).map Product.owner
      = some 1 ∧
    (get_products_by_owner (run [Event.reg 0 "x" "m" 0, Event.xfer 0 1 1]) 0 0 10).map
      Product.owner = [1] := by
  decide

/-- Claim C8, amended: in every state reachable by fewer than 2^64 registrations (so the u64 counters do not wrap), each dimension's positions 1..count map to existing product records — matching the key in the origin dimension, whereas the owner dimension carries no such guarantee: transfer never updates owner indices, so after a transfer get_products_by_owner may return a product whose current owner differs from the key — no position above the count is populated, ids grow strictly along positions (registration order), counts equal the number of registrations under the key, and get_products_by_origin returns only products of that origin. -/
theorem c8_amended (τ : List Event) (hτ : regCount τ < U64) :
    (∀ i, 1 ≤ i → i ≤ totalOf (run τ) →
      (run τ).allProductsIndex i = some i ∧
      ∃ p, (run τ).product i = some p ∧ p.id = i) ∧
    (∀ i, totalOf (run τ) < i → (run τ).allProductsIndex i = none) ∧
    (∀ a i, 1 ≤ i → i ≤ ownerCountOf (run τ) a →
      ∃ pid p, (run τ).ownerProductIndex a i = some pid ∧
        (run τ).product pid = some p) ∧
    (∀ a i, ownerCountOf (run τ) a < i → (run τ).ownerProductIndex a i = none) ∧
    (∀ g i, 1 ≤ i → i ≤ originCountOf (run τ) g →
      ∃ pid p, (run τ).originProductIndex g i = some pid ∧
        (run τ).product pid = some p ∧ p.origin = g) ∧
    (∀ g i, originCountOf (run τ) g < i → (run τ).originProductIndex g i = none) ∧
    totalOf (run τ) = regCount τ ∧
    (∀ a, ownerCountOf (run τ) a = regCountByOwner a τ) ∧
    (∀ g, originCountOf (run τ) g = regCountByOrigin g τ) ∧
    (∀ g start limit p, p ∈ get_products_by_origin (run τ) g start limit →
      p.origin = g) ∧
    (∀ a start limit, List.Pairwise (fun p q => p.id < q.id)
      (get_products_by_owner (run τ) a start limit)) ∧
    (∀ g start limit, List.Pairwise (fun p q => p.id < q.id)
      (get_products_by_origin (run τ) g start limit)) := by
  obtain ⟨hinv, hts, hos, hgs⟩ :=
    run_spec τ initState indexInv_init (by show 0 + regCount τ < U64; omega)
  have hinv' : IndexInv (run τ) := hinv
  have hc1 : totalOf (run τ) = regCount τ := by
    rw [run, hts]
    show 0 + regCount τ = regCount τ
    omega
  have hc2 : ∀ a, ownerCountOf (run τ) a = regCountByOwner a τ := by
    intro a
    rw [run, hos a]
    show 0 + regCountByOwner a τ = regCountByOwner a τ
    omega
  have hc3 : ∀ g, originCountOf (run τ) g = regCountByOrigin g τ := by
    intro g
    rw [run, hgs g]
    show 0 + regCountByOrigin g τ = regCountByOrigin g τ
    omega
  obtain ⟨hg1, hg2, ho1, ho2, ho3, hr1, hr2, hr3, hob, hgb⟩ := hinv
  refine ⟨hg1, ?_, ?_, ?_, ?_, ?_, hc1, hc2, hc3, ?_, ?_, ?_⟩
  · intro i hi
    exact (hg2 i (Or.inr hi)).1
  · intro a i h1 h2
    obtain ⟨pid, hpid, hb1, hb2⟩ := ho1 a i h1 h2
    obtain ⟨_, p, hp, _⟩ := hg1 pid hb1 hb2
    exact ⟨pid, p, hpid, hp⟩
  · intro a i hi
    exact ho2 a i (Or.inr hi)
  · intro g i h1 h2
    obtain ⟨pid, p, hpid, _, _, hp, horig⟩ := hr1 g i h1 h2
    exact ⟨pid, p, hpid, hp, horig⟩
  · intro g i hi
    exact hr2 g i (Or.inr hi)
  · intro g start limit p hp
    exact by_origin_only_origin (run τ) hinv' g start limit p hp
  · intro a start limit
    unfold get_products_by_owner
    exact collectRange_pairwise _ _ (ownerDim_mono (run τ) hinv' a) _ _
  · intro g start limit
    unfold get_products_by_origin
    exact collectRange_pairwise _ _ (originDim_mono (run τ) hinv' g) _ _

/-- Claim C8, witness: the amended statement instantiated at the one-registration trace, whose registration count is below 2^64. -/
theorem c8_witness :
    regCount [Event.reg 0 "x" "m" 0] < U64 ∧
    ((∀ i, 1 ≤ i → i ≤ totalOf (run [Event.reg 0 "x" "m" 0]) →
      (run [Event.reg 0 "x" "m" 0]).allProductsIndex i = some i ∧
      ∃ p, (run [Event.reg 0 "x" "m" 0]).product i = some p ∧ p.id = i) ∧
    (∀ i, totalOf (run [Event.reg 0 "x" "m" 0]) < i →
      (run [Event.reg 0 "x" "m" 0]).allProductsIndex i = none) ∧
    (∀ a i, 1 ≤ i → i ≤ ownerCountOf (run [Event.reg 0 "x" "m" 0]) a →
      ∃ pid p, (run [Event.reg 0 "x" "m" 0]).ownerProductIndex a i = some pid ∧
        (run [Event.reg 0 "x" "m" 0]).product pid = some p) ∧
    (∀ a i, ownerCountOf (run [Event.reg 0 "x" "m" 0]) a < i →
      (run [Event.reg 0 "x" "m" 0]).ownerProductIndex a i = none) ∧
    (∀ g i, 1 ≤ i → i ≤ originCountOf (run [Event.reg 0 "x" "m" 0]) g →
      ∃ pid p, (run [Event.reg 0 "x" "m" 0]).originProductIndex g i = some pid ∧
        (run [Event.reg 0 "x" "m" 0]).product pid = some p ∧ p.origin = g) ∧
    (∀ g i, originCountOf (run [Event.reg 0 "x" "m" 0]) g < i →
      (run [Event.reg 0 "x" "m" 0]).originProductIndex g i = none) ∧
    totalOf (run [Event.reg 0 "x" "m" 0]) = regCount [Event.reg 0 "x" "m" 0] ∧
    (∀ a, ownerCountOf (run [Event.reg 0 "x" "m" 0]) a
      = regCountByOwner a [Event.reg 0 "x" "m" 0]) ∧
    (∀ g, originCountOf (run [Event.reg 0 "x" "m" 0]) g
      = regCountByOrigin g [Event.reg 0 "x" "m" 0]) ∧
    (∀ g start limit p,
      p ∈ get_products_by_origin (run [Event.reg 0 "x" "m" 0]) g start limit →
      p.origin = g) ∧
    (∀ a start limit, List.Pairwise (fun p q => p.id < q.id)
      (get_products_by_owner (run [Event.reg 0 "x" "m" 0]) a start limit)) ∧
    (∀ g start limit, List.Pairwise (fun p q => p.id < q.id)
      (get_products_by_origin (run [Event.reg 0 "x" "m" 0]) g start limit))) :=
  ⟨by decide, c8_amended [Event.reg 0 "x" "m" 0] (by decide)⟩



/-- Claim C9: transfer_product, add_authorized_actor and remove_authorized_actor fail with ProductNotFound exactly when the product record is missing, with Unauthorized exactly when the record exists but the caller is not its owner, and every error leaves the whole persisted state unchanged. -/
theorem c9_error_cases (s : ContractState) (caller : Address) (id : Nat) (x : Address) :
    (((transfer_product s caller id x).1 = Except.error Error.ProductNotFound ↔
        s.product id = none) ∧
     ((transfer_product s caller id x).1 = Except.error Error.Unauthorized ↔
        ∃ p, s.product id = some p ∧ p.owner ≠ caller) ∧
     (∀ e, (transfer_product s caller id x).1 = Except.error e →
        (transfer_product s caller id x).2 = s)) ∧
    (((add_authorized_actor s caller id x).1 = Except.error Error.ProductNotFound ↔
        s.product id = none) ∧
     ((add_authorized_actor s caller id x).1 = Except.error Error.Unauthorized ↔
        ∃ p, s.product id = some p ∧ p.owner ≠ caller) ∧
     (∀ e, (add_authorized_actor s caller id x).1 = Except.error e →
        (add_authorized_actor s caller id x).2 = s)) ∧
    (((remove_authorized_actor s caller id x).1 = Except.error Error.ProductNotFound ↔
        s.product id = none) ∧
     ((remove_authorized_actor s caller id x).1 = Except.error Error.Unauthorized ↔
        ∃ p, s.product id = some p ∧ p.owner ≠ caller) ∧
     (∀ e, (remove_authorized_actor s caller id x).1 = Except.error e →
        (remove_authorized_actor s caller id x).2 = s)) := by
  cases hq : s.product id with
  | none =>
    simp [transfer_product, add_authorized_actor, remove_authorized_actor, hq]
  | some q =>
    by_cases hqo : q.owner = caller <;>
      simp [transfer_product, add_authorized_actor, remove_authorized_actor, hq, hqo]

/-- Claim C9, witness: the error characterization instantiated on the one-product state with the non-owner caller 5. -/
theorem c9_witness :
    (((transfer_product cxS1 5 1 6).1 = Except.error Error.ProductNotFound ↔
        cxS1.product 1 = none) ∧
     ((transfer_product cxS1 5 1 6).1 = Except.error Error.Unauthorized ↔
        ∃ p, cxS1.product 1 = some p ∧ p.owner ≠ 5) ∧
     (∀ e, (transfer_product cxS1 5 1 6).1 = Except.error e →
        (transfer_product cxS1 5 1 6).2 = cxS1)) ∧
    (((add_authorized_actor cxS1 5 1 6).1 = Except.error Error.ProductNotFound ↔
        cxS1.product 1 = none) ∧
     ((add_authorized_actor cxS1 5 1 6).1 = Except.error Error.Unauthorized ↔
        ∃ p, cxS1.product 1 = some p ∧ p.owner ≠ 5) ∧
     (∀ e, (add_authorized_actor cxS1 5 1 6).1 = Except.error e →
        (add_authorized_actor cxS1 5 1 6).2 = cxS1)) ∧
    (((remove_authorized_actor cxS1 5 1 6).1 = Except.error Error.ProductNotFound ↔
        cxS1.product 1 = none) ∧
     ((remove_authorized_actor cxS1 5 1 6).1 = Except.error Error.Unauthorized ↔
        ∃ p, cxS1.product 1 = some p ∧ p.owner ≠ 5) ∧
     (∀ e, (remove_authorized_actor cxS1 5 1 6).1 = Except.error e →
        (remove_authorized_actor cxS1 5 1 6).2 = cxS1)) :=
  c9_error_cases cxS1 5 1 6

/-- Claim C10: a self-transfer by the current owner succeeds, leaves the product record unchanged (owner still O), writes the delegated entry Auth(id, O) = true, and leaves is_authorized unchanged for every product and address. -/
theorem c10_self_transfer (s : ContractState) (id : Nat) (O : Address) (p : Product)
    (hp : s.product id = some p) (ho : p.owner = O) :
    (transfer_product s O id O).1 = Except.ok () ∧
    get_product (transfer_product s O id O).2 id = some p ∧
    (transfer_product s O id O).2.auth id O = some true ∧
    (∀ pid a, is_authorized (transfer_product s O id O).2 pid a = is_authorized s pid a) := by
  have hpp : { p with owner := O } = p := by
    cases p
    simp_all
  refine ⟨?_, ?_, ?_, ?_⟩
  · simp [transfer_product, hp, ho]
  · simp [transfer_product, hp, ho, get_product, hpp]
  · simp [transfer_product, hp, ho]
  · intro pid a
    by_cases hpid : pid = id
    · subst hpid
      by_cases ha : a = O
      · subst ha
        simp [transfer_product, hp, ho, is_authorized, hpp]
      · simp [transfer_product, hp, ho, is_authorized, hpp, ha, Ne.symm ha]
    · simp [transfer_product, hp, ho, is_authorized, hpid]

/-- Claim C10, witness: the self-transfer statement instantiated on product 1 owned by address 0. -/
theorem c10_witness :
    cxS1.product 1 = some ⟨1, 0, "o", true, "m", 0⟩ ∧
    (⟨1, 0, "o", true, "m", 0⟩ : Product).owner = 0 ∧
    ((transfer_product cxS1 0 1 0).1 = Except.ok () ∧
     get_product (transfer_product cxS1 0 1 0).2 1 = some ⟨1, 0, "o", true, "m", 0⟩ ∧
     (transfer_product cxS1 0 1 0).2.auth 1 0 = some true ∧
     (∀ pid a, is_authorized (transfer_product cxS1 0 1 0).2 pid a
        = is_authorized cxS1 pid a)) :=
  ⟨by decide, by decide, c10_self_transfer cxS1 1 0 ⟨1, 0, "o", true, "m", 0⟩ (by decide) (by decide)⟩

end ChainLogistics
